import Mathlib

/-!
Formal model of the BIP39 validator-key generation pipeline implemented in
`genvalidatorkey.py` (classes `BIP39` and `ValidatorKey`).

Python strings are modelled as `List Char`, byte strings as `List Nat`
(each entry intended `< 256`), and the textual binary strings produced by
`bin(...)[2:].zfill(k)` as `List Bool` (the character `1` is `true`).
The cryptographic primitives used by the script (`hashlib.sha256`,
`hashlib.pbkdf2_hmac` with HMAC-SHA512, and ed25519 public-key derivation)
are given full executable definitions below, following FIPS 180-4,
RFC 2104/8018 and RFC 8032.
-/

namespace Py

/-- Python whitespace characters recognised by `str.split()` / `str.strip()`
(ASCII subset). -/
def isPySpace (c : Char) : Bool :=
  c = ' ' || c = '\t' || c = '\n' || c = '\x0d' || c = '\x0b' || c = '\x0c'

/-- Model of Python `str.strip()`: drop leading and trailing whitespace. -/
def pyStrip (s : List Char) : List Char :=
  ((s.dropWhile isPySpace).reverse.dropWhile isPySpace).reverse

/-- Helper for `str.split()`: walks the string keeping the (reversed)
characters of the token currently being read. -/
def pySplitAux : List Char → List Char → List (List Char)
  | [], acc => if acc.isEmpty then [] else [acc.reverse]
  | c :: rest, acc =>
    if isPySpace c then
      if acc.isEmpty then pySplitAux rest [] else acc.reverse :: pySplitAux rest []
    else
      pySplitAux rest (c :: acc)

/-- Model of Python `str.split()` with no separator argument: splits on runs
of whitespace and never returns empty tokens. -/
def pySplit (s : List Char) : List (List Char) := pySplitAux s []

/-- Model of `' '.join(words)`. -/
def joinSpace : List (List Char) → List Char
  | [] => []
  | [w] => w
  | w :: ws => w ++ ' ' :: joinSpace ws

/-- UTF-8 encoding of a single character (RFC 3629), as used by
`str.encode('utf-8')`. -/
def utf8Char (c : Char) : List Nat :=
  let n := c.toNat
  if n < 128 then [n]
  else if n < 2048 then [192 + n / 64, 128 + n % 64]
  else if n < 65536 then [224 + n / 4096, 128 + n / 64 % 64, 128 + n % 64]
  else [240 + n / 262144, 128 + n / 4096 % 64, 128 + n / 64 % 64, 128 + n % 64]

/-- Model of Python `str.encode('utf-8')`. -/
def utf8Encode (s : List Char) : List Nat := (s.map utf8Char).flatten

/-- Value of a big-endian binary string, as computed by `int(bits, 2)`. -/
def bitsToNat (bs : List Bool) : Nat := bs.foldl (fun a b => 2 * a + b.toNat) 0

/-- The `k` low bits of `x` as a big-endian binary string. -/
def natToBits : Nat → Nat → List Bool
  | 0, _ => []
  | k + 1, x => natToBits k (x / 2) ++ [x % 2 == 1]

/-- Bit length of `x`, computed structurally on a fuel argument (any fuel
at least `x` gives the exact bit length). -/
def bitLenFuel : Nat → Nat → Nat
  | 0, _ => 0
  | fuel + 1, x => if x = 0 then 0 else bitLenFuel fuel (x / 2) + 1

/-- Length of Python `bin(x)[2:]`: the bit length of `x`, and 1 for `x = 0`. -/
def pyBinLen (x : Nat) : Nat := max 1 (bitLenFuel x x)

/-- Model of Python `bin(x)[2:]` for `x ≥ 0`: minimal-length big-endian
binary string (the single character `0` when `x = 0`). -/
def pyBin (x : Nat) : List Bool := natToBits (pyBinLen x) x

/-- Model of Python `str.zfill(k)` on a binary string: left-pad with `0`
characters up to length `k`. -/
def zfill (k : Nat) (bs : List Bool) : List Bool :=
  List.replicate (k - bs.length) false ++ bs

/-- Value of a big-endian byte string, as computed by
`int.from_bytes(b, 'big')`. -/
def bytesToNat (bs : List Nat) : Nat := bs.foldl (fun a b => 256 * a + b) 0

/-- Model of `x.to_bytes(k, 'big')`: the `k` low bytes of `x`, big-endian
(all uses below are in range, so the overflow check cannot fire). -/
def natToBytes : Nat → Nat → List Nat
  | 0, _ => []
  | k + 1, x => natToBytes k (x / 256) ++ [x % 256]

end Py

namespace SHA2

/-- State of the SHA-2 compression function: eight working registers. -/
structure St where
  a : Nat
  b : Nat
  c : Nat
  d : Nat
  e : Nat
  f : Nat
  g : Nat
  h : Nat
deriving DecidableEq

/-- Rotate the 32-bit word `x` right by `n` (for `x < 2^32`, `0 < n < 32`). -/
def rotr32 (n x : Nat) : Nat := x / 2 ^ n + x % 2 ^ n * 2 ^ (32 - n)

/-- SHA-256 big sigma-0. -/
def bsig0 (x : Nat) : Nat := rotr32 2 x ^^^ rotr32 13 x ^^^ rotr32 22 x

/-- SHA-256 big sigma-1. -/
def bsig1 (x : Nat) : Nat := rotr32 6 x ^^^ rotr32 11 x ^^^ rotr32 25 x

/-- SHA-256 small sigma-0. -/
def ssig0 (x : Nat) : Nat := rotr32 7 x ^^^ rotr32 18 x ^^^ x / 8

/-- SHA-256 small sigma-1. -/
def ssig1 (x : Nat) : Nat := rotr32 17 x ^^^ rotr32 19 x ^^^ x / 1024

/-- The choice function of SHA-2 (on 32-bit words). -/
def ch32 (x y z : Nat) : Nat := (x &&& y) ^^^ ((x ^^^ 4294967295) &&& z)

/-- The majority function of SHA-2 (on 32-bit words). -/
def maj (x y z : Nat) : Nat := (x &&& y) ^^^ (x &&& z) ^^^ (y &&& z)

/-- SHA-256 round constants (FIPS 180-4 section 4.2.2). -/
def K256 : List Nat :=
  [1116352408, 1899447441, 3049323471, 3921009573,
   961987163, 1508970993, 2453635748, 2870763221,
   3624381080, 310598401, 607225278, 1426881987,
   1925078388, 2162078206, 2614888103, 3248222580,
   3835390401, 4022224774, 264347078, 604807628,
   770255983, 1249150122, 1555081692, 1996064986,
   2554220882, 2821834349, 2952996808, 3210313671,
   3336571891, 3584528711, 113926993, 338241895,
   666307205, 773529912, 1294757372, 1396182291,
   1695183700, 1986661051, 2177026350, 2456956037,
   2730485921, 2820302411, 3259730800, 3345764771,
   3516065817, 3600352804, 4094571909, 275423344,
   430227734, 506948616, 659060556, 883997877,
   958139571, 1322822218, 1537002063, 1747873779,
   1955562222, 2024104815, 2227730452, 2361852424,
   2428436474, 2756734187, 3204031479, 3329325298]

/-- Initial SHA-256 hash value. -/
def initH256 : St :=
  ⟨1779033703, 3144134277, 1013904242, 2773480762,
   1359893119, 2600822924, 528734635, 1541459225⟩

/-- One SHA-256 round. -/
def step256 (st : St) (k w : Nat) : St :=
  let t1 := (st.h + bsig1 st.e + ch32 st.e st.f st.g + k + w) % 4294967296
  let t2 := (bsig0 st.a + maj st.a st.b st.c) % 4294967296
  ⟨(t1 + t2) % 4294967296, st.a, st.b, st.c,
   (st.d + t1) % 4294967296, st.e, st.f, st.g⟩

/-- Run the SHA-256 rounds over the constant and schedule word lists. -/
def rounds256 : List Nat → List Nat → St → St
  | k :: ks, w :: ws, st => rounds256 ks ws (step256 st k w)
  | _, _, st => st

/-- Extend the 16 message words to the 64-entry SHA-256 schedule. -/
def extend256 : Nat → List Nat → List Nat
  | 0, ws => ws
  | n + 1, ws =>
    let t := ws.length
    extend256 n (ws ++
      [(ws.getD (t - 16) 0 + ssig0 (ws.getD (t - 15) 0) + ws.getD (t - 7) 0
        + ssig1 (ws.getD (t - 2) 0)) % 4294967296])

/-- Parse `4*n` bytes into `n` big-endian 32-bit words. -/
def toWords32 : Nat → List Nat → List Nat
  | 0, _ => []
  | n + 1, bs => Py.bytesToNat (bs.take 4) :: toWords32 n (bs.drop 4)

/-- SHA-256 compression of one 64-byte block. -/
def compress256 (st : St) (block : List Nat) : St :=
  let r := rounds256 K256 (extend256 48 (toWords32 16 block)) st
  ⟨(st.a + r.a) % 4294967296, (st.b + r.b) % 4294967296,
   (st.c + r.c) % 4294967296, (st.d + r.d) % 4294967296,
   (st.e + r.e) % 4294967296, (st.f + r.f) % 4294967296,
   (st.g + r.g) % 4294967296, (st.h + r.h) % 4294967296⟩

/-- Fold the SHA-256 compression over `n` consecutive 64-byte blocks. -/
def sha256blocks : Nat → St → List Nat → St
  | 0, st, _ => st
  | n + 1, st, bs => sha256blocks n (compress256 st (bs.take 64)) (bs.drop 64)

/-- SHA-256 message padding (FIPS 180-4 section 5.1.1). -/
def sha256pad (msg : List Nat) : List Nat :=
  msg ++ 128 :: (List.replicate ((119 - msg.length % 64) % 64) 0
    ++ Py.natToBytes 8 (8 * msg.length))

/-- A 32-bit word as four big-endian bytes. -/
def word32Bytes (w : Nat) : List Nat :=
  [w / 16777216 % 256, w / 65536 % 256, w / 256 % 256, w % 256]

/-- The eight state words as a 32-byte digest. -/
def digest256 (st : St) : List Nat :=
  word32Bytes st.a ++ word32Bytes st.b ++ word32Bytes st.c ++ word32Bytes st.d
    ++ word32Bytes st.e ++ word32Bytes st.f ++ word32Bytes st.g ++ word32Bytes st.h

end SHA2

/-- SHA-256 of a byte string, as computed by `hashlib.sha256(...).digest()`. -/
def sha256 (msg : List Nat) : List Nat :=
  let p := SHA2.sha256pad msg
  SHA2.digest256 (SHA2.sha256blocks (p.length / 64) SHA2.initH256 p)

namespace SHA2

/-- SHA-512 big sigma-1 (rotations by 14, 18, 41). -/
def Sig1e (x : Nat) : Nat :=
  (x / 16384 + x % 16384 * 1125899906842624) ^^^ (x / 262144 + x % 262144 * 70368744177664) ^^^ (x / 2199023255552 + x % 2199023255552 * 8388608)

/-- SHA-512 big sigma-0 (rotations by 28, 34, 39). -/
def Sig0a (x : Nat) : Nat :=
  (x / 268435456 + x % 268435456 * 68719476736) ^^^ (x / 17179869184 + x % 17179869184 * 1073741824) ^^^ (x / 549755813888 + x % 549755813888 * 33554432)

/-- SHA-512 small sigma-0 (rotations by 1, 8 and shift by 7). -/
def sig0w (x : Nat) : Nat :=
  (x / 2 + x % 2 * 9223372036854775808) ^^^ (x / 256 + x % 256 * 72057594037927936) ^^^ x / 128

/-- SHA-512 small sigma-1 (rotations by 19, 61 and shift by 6). -/
def sig1w (x : Nat) : Nat :=
  (x / 524288 + x % 524288 * 35184372088832) ^^^ (x / 2305843009213693952 + x % 2305843009213693952 * 8) ^^^ x / 64

/-- SHA-512 round constants (FIPS 180-4 section 4.2.3). -/
def K512 : List Nat :=
  [4794697086780616226, 8158064640168781261,
   13096744586834688815, 16840607885511220156,
   4131703408338449720, 6480981068601479193,
   10538285296894168987, 12329834152419229976,
   15566598209576043074, 1334009975649890238,
   2608012711638119052, 6128411473006802146,
   8268148722764581231, 9286055187155687089,
   11230858885718282805, 13951009754708518548,
   16472876342353939154, 17275323862435702243,
   1135362057144423861, 2597628984639134821,
   3308224258029322869, 5365058923640841347,
   6679025012923562964, 8573033837759648693,
   10970295158949994411, 12119686244451234320,
   12683024718118986047, 13788192230050041572,
   14330467153632333762, 15395433587784984357,
   489312712824947311, 1452737877330783856,
   2861767655752347644, 3322285676063803686,
   5560940570517711597, 5996557281743188959,
   7280758554555802590, 8532644243296465576,
   9350256976987008742, 10552545826968843579,
   11727347734174303076, 12113106623233404929,
   14000437183269869457, 14369950271660146224,
   15101387698204529176, 15463397548674623760,
   17586052441742319658, 1182934255886127544,
   1847814050463011016, 2177327727835720531,
   2830643537854262169, 3796741975233480872,
   4115178125766777443, 5681478168544905931,
   6601373596472566643, 7507060721942968483,
   8399075790359081724, 8693463985226723168,
   9568029438360202098, 10144078919501101548,
   10430055236837252648, 11840083180663258601,
   13761210420658862357, 14299343276471374635,
   14566680578165727644, 15097957966210449927,
   16922976911328602910, 17689382322260857208,
   500013540394364858, 748580250866718886,
   1242879168328830382, 1977374033974150939,
   2944078676154940804, 3659926193048069267,
   4368137639120453308, 4836135668995329356,
   5532061633213252278, 6448918945643986474,
   6902733635092675308, 7801388544844847127]

/-- Initial SHA-512 hash value. -/
def initH512 : St :=
  ⟨7640891576956012808, 13503953896175478587, 4354685564936845355, 11912009170470909681,
   5840696475078001361, 11170449401992604703, 2270897969802886507, 6620516959819538809⟩

/-- The SHA-512 rounds, one per entry of the constant list, carrying the
eight registers and a sliding window of sixteen schedule words; the next
schedule word is produced on each round (the values computed past round 79
are never consumed). -/
def rounds512 : List Nat → Nat → Nat → Nat → Nat → Nat → Nat → Nat → Nat → Nat → Nat → Nat → Nat → Nat → Nat → Nat → Nat → Nat → Nat → Nat → Nat → Nat → Nat → Nat → Nat → St
  | [], a, b, c, d, e, f, g, h, _, _, _, _, _, _, _, _, _, _, _, _, _, _, _, _ => ⟨a, b, c, d, e, f, g, h⟩
  | k :: ks, a, b, c, d, e, f, g, h, w0, w1, w2, w3, w4, w5, w6, w7, w8, w9, w10, w11, w12, w13, w14, w15 =>
    let t1 := (h + Sig1e e + ((e &&& f) ^^^ ((e ^^^ 18446744073709551615) &&& g)) + k + w0) % 18446744073709551616
    let t2 := (Sig0a a + ((a &&& b) ^^^ (a &&& c) ^^^ (b &&& c))) % 18446744073709551616
    let wn := (sig1w w14 + w9 + sig0w w1 + w0) % 18446744073709551616
    rounds512 ks ((t1 + t2) % 18446744073709551616) a b c ((d + t1) % 18446744073709551616) e f g
      w1 w2 w3 w4 w5 w6 w7 w8 w9 w10 w11 w12 w13 w14 w15 wn

/-- Parse `8*n` bytes into `n` big-endian 64-bit words. -/
def toWords64 : Nat → List Nat → List Nat
  | 0, _ => []
  | n + 1, bs => Py.bytesToNat (bs.take 8) :: toWords64 n (bs.drop 8)

/-- SHA-512 compression of one 128-byte block. -/
def compress512 (st : St) (block : List Nat) : St :=
  match toWords64 16 block with
  | [w0, w1, w2, w3, w4, w5, w6, w7, w8, w9, w10, w11, w12, w13, w14, w15] =>
    let r := rounds512 K512 st.a st.b st.c st.d st.e st.f st.g st.h
      w0 w1 w2 w3 w4 w5 w6 w7 w8 w9 w10 w11 w12 w13 w14 w15
    ⟨(st.a + r.a) % 18446744073709551616, (st.b + r.b) % 18446744073709551616,
     (st.c + r.c) % 18446744073709551616, (st.d + r.d) % 18446744073709551616,
     (st.e + r.e) % 18446744073709551616, (st.f + r.f) % 18446744073709551616,
     (st.g + r.g) % 18446744073709551616, (st.h + r.h) % 18446744073709551616⟩
  | _ => st

/-- Fold the SHA-512 compression over `n` consecutive 128-byte blocks. -/
def sha512blocks : Nat → St → List Nat → St
  | 0, st, _ => st
  | n + 1, st, bs => sha512blocks n (compress512 st (bs.take 128)) (bs.drop 128)

/-- SHA-512 message padding (FIPS 180-4 section 5.1.2). -/
def sha512pad (msg : List Nat) : List Nat :=
  msg ++ 128 :: (List.replicate ((239 - msg.length % 128) % 128) 0
    ++ Py.natToBytes 16 (8 * msg.length))

/-- A 64-bit word as eight big-endian bytes. -/
def word64Bytes (w : Nat) : List Nat :=
  [w / 72057594037927936 % 256, w / 281474976710656 % 256,
   w / 1099511627776 % 256, w / 4294967296 % 256,
   w / 16777216 % 256, w / 65536 % 256, w / 256 % 256, w % 256]

/-- The eight state words as a 64-byte digest. -/
def digest512 (st : St) : List Nat :=
  word64Bytes st.a ++ word64Bytes st.b ++ word64Bytes st.c ++ word64Bytes st.d
    ++ word64Bytes st.e ++ word64Bytes st.f ++ word64Bytes st.g ++ word64Bytes st.h

end SHA2

/-- SHA-512 of a byte string, as computed by `hashlib.sha512(...).digest()`. -/
def sha512 (msg : List Nat) : List Nat :=
  let p := SHA2.sha512pad msg
  SHA2.digest512 (SHA2.sha512blocks (p.length / 128) SHA2.initH512 p)

/-- HMAC-SHA512 (RFC 2104, block size 128 bytes). -/
def hmacSha512 (key msg : List Nat) : List Nat :=
  let k0 := if 128 < key.length then sha512 key ++ List.replicate 96 0
            else key ++ List.replicate (128 - key.length) 0
  sha512 ((k0.map (fun b => b ^^^ 92)) ++ sha512 ((k0.map (fun b => b ^^^ 54)) ++ msg))

/-- The PBKDF2 iteration: each step applies HMAC to the previous block and
xors it into the accumulator. -/
def pbkdf2Loop : Nat → List Nat → List Nat → List Nat → List Nat
  | 0, _, _, acc => acc
  | n + 1, pw, u, acc =>
    let u2 := hmacSha512 pw u
    pbkdf2Loop n pw u2 (List.zipWith (fun a b => a ^^^ b) acc u2)

/-- Continuation applied to a forced natural number: matching on the
constructor makes kernel reduction evaluate `n` to a literal before the
continuation runs. -/
def fNat (n : Nat) (k : Nat → α) : α :=
  match n with
  | 0 => k 0
  | m + 1 => k (m + 1)

/-- `SHA2.Sig1e` written with explicit `Nat` primitives (definitionally
equal; the explicit form keeps kernel reduction on the fast literal
path). -/
def S1F (x : Nat) : Nat :=
  Nat.xor (Nat.xor
    (Nat.add (Nat.div x 16384) (Nat.mul (Nat.mod x 16384) 1125899906842624))
    (Nat.add (Nat.div x 262144) (Nat.mul (Nat.mod x 262144) 70368744177664)))
    (Nat.add (Nat.div x 2199023255552) (Nat.mul (Nat.mod x 2199023255552) 8388608))

/-- `SHA2.Sig0a` written with explicit `Nat` primitives. -/
def S0F (x : Nat) : Nat :=
  Nat.xor (Nat.xor
    (Nat.add (Nat.div x 268435456) (Nat.mul (Nat.mod x 268435456) 68719476736))
    (Nat.add (Nat.div x 17179869184) (Nat.mul (Nat.mod x 17179869184) 1073741824)))
    (Nat.add (Nat.div x 549755813888) (Nat.mul (Nat.mod x 549755813888) 33554432))

/-- `SHA2.sig0w` written with explicit `Nat` primitives. -/
def s0F (x : Nat) : Nat :=
  Nat.xor (Nat.xor
    (Nat.add (Nat.div x 2) (Nat.mul (Nat.mod x 2) 9223372036854775808))
    (Nat.add (Nat.div x 256) (Nat.mul (Nat.mod x 256) 72057594037927936)))
    (Nat.div x 128)

/-- `SHA2.sig1w` written with explicit `Nat` primitives. -/
def s1F (x : Nat) : Nat :=
  Nat.xor (Nat.xor
    (Nat.add (Nat.div x 524288) (Nat.mul (Nat.mod x 524288) 35184372088832))
    (Nat.add (Nat.div x 2305843009213693952) (Nat.mul (Nat.mod x 2305843009213693952) 8)))
    (Nat.div x 64)

/-- Strict evaluator twin of the SHA-512 rounds: the same computation as
`SHA2.rounds512`, written with the bare `List.rec` and with explicit `Nat`
primitives, so that kernel reduction stays on the fast literal path. -/
def rounds512F (ks : List Nat) : Nat → Nat → Nat → Nat → Nat → Nat → Nat → Nat → Nat → Nat → Nat → Nat → Nat → Nat → Nat → Nat → Nat → Nat → Nat → Nat → Nat → Nat → Nat → Nat → SHA2.St :=
  List.rec (motive := fun _ => Nat → Nat → Nat → Nat → Nat → Nat → Nat → Nat → Nat → Nat → Nat → Nat → Nat → Nat → Nat → Nat → Nat → Nat → Nat → Nat → Nat → Nat → Nat → Nat → SHA2.St)
    (fun a b c d e f g h _ _ _ _ _ _ _ _ _ _ _ _ _ _ _ _ => ⟨a, b, c, d, e, f, g, h⟩)
    (fun k _ ih a b c d e f g h w0 w1 w2 w3 w4 w5 w6 w7 w8 w9 w10 w11 w12 w13 w14 w15 =>
      (fun t1 t2 wn =>
        ih (Nat.mod (Nat.add t1 t2) 18446744073709551616) a b c
          (Nat.mod (Nat.add d t1) 18446744073709551616) e f g
          w1 w2 w3 w4 w5 w6 w7 w8 w9 w10 w11 w12 w13 w14 w15 wn)
      (Nat.mod (Nat.add (Nat.add (Nat.add (Nat.add h (S1F e))
        (Nat.xor (Nat.land e f) (Nat.land (Nat.xor e 18446744073709551615) g))) k) w0)
        18446744073709551616)
      (Nat.mod (Nat.add (S0F a)
        (Nat.xor (Nat.xor (Nat.land a b) (Nat.land a c)) (Nat.land b c)))
        18446744073709551616)
      (Nat.mod (Nat.add (Nat.add (Nat.add (s1F w14) w9) (s0F w1)) w0)
        18446744073709551616))
    ks

/-- One SHA-512 compression applied to a block given as sixteen words,
with explicit `Nat` primitives. -/
def compressW (st : SHA2.St) (w0 w1 w2 w3 w4 w5 w6 w7 w8 w9 w10 w11 w12 w13 w14 w15 : Nat) : SHA2.St :=
  (fun r => SHA2.St.mk
    (Nat.mod (Nat.add st.a (SHA2.St.a r)) 18446744073709551616)
    (Nat.mod (Nat.add st.b (SHA2.St.b r)) 18446744073709551616)
    (Nat.mod (Nat.add st.c (SHA2.St.c r)) 18446744073709551616)
    (Nat.mod (Nat.add st.d (SHA2.St.d r)) 18446744073709551616)
    (Nat.mod (Nat.add st.e (SHA2.St.e r)) 18446744073709551616)
    (Nat.mod (Nat.add st.f (SHA2.St.f r)) 18446744073709551616)
    (Nat.mod (Nat.add st.g (SHA2.St.g r)) 18446744073709551616)
    (Nat.mod (Nat.add st.h (SHA2.St.h r)) 18446744073709551616))
  (rounds512F SHA2.K512 st.a st.b st.c st.d st.e st.f st.g st.h
    w0 w1 w2 w3 w4 w5 w6 w7 w8 w9 w10 w11 w12 w13 w14 w15)

/-- One PBKDF2-HMAC-SHA512 iteration at the word level: `ist` and `ost`
are the SHA-512 chaining states after absorbing the inner and outer padded
key blocks, and `u` is the previous 64-byte block as eight words; the
second compressed block of each of the two hashes is the eight data words
followed by the fixed SHA-512 padding of a 192-byte message. -/
def hmacStep (ist ost : SHA2.St) (u : SHA2.St) : SHA2.St :=
  (fun inner => compressW ost (SHA2.St.a inner) (SHA2.St.b inner) (SHA2.St.c inner)
    (SHA2.St.d inner) (SHA2.St.e inner) (SHA2.St.f inner) (SHA2.St.g inner) (SHA2.St.h inner)
    9223372036854775808 0 0 0 0 0 0 1536)
  (compressW ist (SHA2.St.a u) (SHA2.St.b u) (SHA2.St.c u)
    (SHA2.St.d u) (SHA2.St.e u) (SHA2.St.f u) (SHA2.St.g u) (SHA2.St.h u)
    9223372036854775808 0 0 0 0 0 0 1536)

/-- Word-wise xor of two SHA-512 states. -/
def xorSt (x y : SHA2.St) : SHA2.St :=
  ⟨Nat.xor x.a y.a, Nat.xor x.b y.b, Nat.xor x.c y.c, Nat.xor x.d y.d,
   Nat.xor x.e y.e, Nat.xor x.f y.f, Nat.xor x.g y.g, Nat.xor x.h y.h⟩

/-- Or over all sixteen words of two states: evaluating it forces each
word to a literal, and the shared subterms are then reused from the
evaluation cache. -/
def forceKey (x y : SHA2.St) : Nat :=
  Nat.lor
    (Nat.lor (Nat.lor (Nat.lor (SHA2.St.a x) (SHA2.St.b x)) (Nat.lor (SHA2.St.c x) (SHA2.St.d x)))
      (Nat.lor (Nat.lor (SHA2.St.e x) (SHA2.St.f x)) (Nat.lor (SHA2.St.g x) (SHA2.St.h x))))
    (Nat.lor (Nat.lor (Nat.lor (SHA2.St.a y) (SHA2.St.b y)) (Nat.lor (SHA2.St.c y) (SHA2.St.d y)))
      (Nat.lor (Nat.lor (SHA2.St.e y) (SHA2.St.f y)) (Nat.lor (SHA2.St.g y) (SHA2.St.h y))))

/-- The PBKDF2 loop at the word level: the pair carries the current block
and the xor accumulator, each as eight 64-bit words; every iteration is
forced to literals before the recursive call so that kernel reduction runs
in bounded stack space. -/
def pbkdf2WLoop (ist ost : SHA2.St) (n : Nat) : SHA2.St → SHA2.St → SHA2.St × SHA2.St :=
  Nat.rec (motive := fun _ => SHA2.St → SHA2.St → SHA2.St × SHA2.St)
    (fun u acc => (u, acc))
    (fun _ ih u acc =>
      (fun u2 =>
        (fun acc2 => fNat (forceKey u2 acc2) (fun _ => ih u2 acc2))
        (xorSt acc u2))
      (hmacStep ist ost u))
    n

/-- The SHA-512 chaining state after absorbing the inner padded key block
of HMAC with key `pw` (the key padded to 128 bytes and xored with `0x36`). -/
def istOf (pw : List Nat) : SHA2.St :=
  SHA2.compress512 SHA2.initH512 ((pw ++ List.replicate (128 - pw.length) 0).map (fun b => b ^^^ 54))

/-- The SHA-512 chaining state after absorbing the outer padded key block
of HMAC with key `pw` (the key padded to 128 bytes and xored with `0x5c`). -/
def ostOf (pw : List Nat) : SHA2.St :=
  SHA2.compress512 SHA2.initH512 ((pw ++ List.replicate (128 - pw.length) 0).map (fun b => b ^^^ 92))

/-- All eight words of the state are below `2^64`. -/
@[reducible] def StB (s : SHA2.St) : Prop :=
  s.a < 18446744073709551616 ∧ s.b < 18446744073709551616
    ∧ s.c < 18446744073709551616 ∧ s.d < 18446744073709551616
    ∧ s.e < 18446744073709551616 ∧ s.f < 18446744073709551616
    ∧ s.g < 18446744073709551616 ∧ s.h < 18446744073709551616

/-- PBKDF2-HMAC-SHA512 with a 64-byte derived key (one output block), as
computed by `hashlib.pbkdf2_hmac('sha512', pw, salt, iters)` with the
default output length. -/
def pbkdf2HmacSha512 (pw salt : List Nat) (iters : Nat) : List Nat :=
  let u1 := hmacSha512 pw (salt ++ [0, 0, 0, 1])
  pbkdf2Loop (iters - 1) pw u1 u1

namespace Ed25519

/-- The field order 2^255 - 19. -/
def edP : Nat := 57896044618658097711785492504343953926634992332820282019728792003956564819949

/-- The twisted Edwards curve constant d = -121665/121666 mod p. -/
def edD : Nat := 37095705934669439343138083508754565189542113879843219016388785533085940283555

/-- A curve point in extended twisted Edwards coordinates. -/
structure EdPoint where
  X : Nat
  Y : Nat
  Z : Nat
  T : Nat

/-- Point addition (RFC 8032 section 5.1.4). -/
def edAdd (P Q : EdPoint) : EdPoint :=
  let A := (P.Y + edP - P.X) * ((Q.Y + edP - Q.X) % edP) % edP
  let B := (P.Y + P.X) * ((Q.Y + Q.X) % edP) % edP
  let C := P.T * Q.T % edP * 2 % edP * edD % edP
  let D := P.Z * Q.Z % edP * 2 % edP
  let E := (B + edP - A) % edP
  let F := (D + edP - C) % edP
  let G := (D + C) % edP
  let H := (B + A) % edP
  ⟨E * F % edP, G * H % edP, F * G % edP, E * H % edP⟩

/-- Point doubling (RFC 8032 section 5.1.4). -/
def edDouble (P : EdPoint) : EdPoint :=
  let A := P.X * P.X % edP
  let B := P.Y * P.Y % edP
  let C := 2 * (P.Z * P.Z % edP) % edP
  let H := (A + B) % edP
  let S := (P.X + P.Y) * (P.X + P.Y) % edP
  let E := (H + edP - S) % edP
  let G := (A + edP - B) % edP
  let F := (C + G) % edP
  ⟨E * F % edP, G * H % edP, F * G % edP, E * H % edP⟩

/-- The standard base point. -/
def edBase : EdPoint :=
  ⟨15112221349535400772501151409588531511454012693041857206046113283949847762202,
   46316835694926478169428394003475163141307993866256225615783033603165251855960,
   1,
   15112221349535400772501151409588531511454012693041857206046113283949847762202
     * 46316835694926478169428394003475163141307993866256225615783033603165251855960 % edP⟩

/-- Double-and-add scalar multiplication of the base point, most
significant bit first; the fuel argument is the bit position. -/
def edScalarMulAux : Nat → Nat → EdPoint → EdPoint
  | 0, _, acc => acc
  | i + 1, k, acc =>
    let acc2 := edDouble acc
    edScalarMulAux i k (if k / 2 ^ i % 2 == 1 then edAdd acc2 edBase else acc2)

/-- Scalar multiplication `k * B` (clamped scalars have at most 255 bits). -/
def edScalarMulBase (k : Nat) : EdPoint := edScalarMulAux 255 k ⟨0, 1, 1, 0⟩

/-- Modular exponentiation by binary decomposition of the exponent (the
fuel bounds the exponent's bit count). -/
def powMod : Nat → Nat → Nat → Nat → Nat
  | 0, _, _, _ => 1
  | fuel + 1, b, e, m =>
    if e = 0 then 1 % m
    else
      let r := powMod fuel (b * b % m) (e / 2) m
      if e % 2 == 1 then r * b % m else r

/-- Field inversion via Fermat's little theorem. -/
def inv25519 (x : Nat) : Nat := powMod 256 x (edP - 2) edP

/-- The `k` low bytes of `x`, little-endian. -/
def natToBytesLE : Nat → Nat → List Nat
  | 0, _ => []
  | k + 1, x => x % 256 :: natToBytesLE k (x / 256)

/-- Value of a little-endian byte string. -/
def bytesToNatLE (bs : List Nat) : Nat := bs.foldr (fun b a => a * 256 + b) 0

/-- Point compression: the y coordinate with the parity of x in the top
bit, as 32 little-endian bytes (RFC 8032 section 5.1.2). -/
def edEncodePoint (P : EdPoint) : List Nat :=
  let zi := inv25519 P.Z
  let x := P.X * zi % edP
  let y := P.Y * zi % edP
  natToBytesLE 32 (y + x % 2
    * 57896044618658097711785492504343953926634992332820282019728792003956564819968)

/-- The ed25519 public key of a 32-byte seed (RFC 8032 section 5.1.5):
hash the seed with SHA-512, clamp the lower half into a scalar, multiply
the base point and compress. -/
def ed25519Pub (seed : List Nat) : List Nat :=
  let h := sha512 seed
  let s := bytesToNatLE (h.take 32)
  let a := (s &&& 28948022309329048855892746252171976963317496166410141009864396001978282409976)
    ||| 28948022309329048855892746252171976963317496166410141009864396001978282409984
  edEncodePoint (edScalarMulBase a)

end Ed25519

namespace BIP39

/-- The reverse map built in `BIP39.__init__` by
`{word: idx for idx, word in enumerate(self.wordlist)}`: iterate in order,
later entries overriding earlier ones; lookup is `None` for absent words
(a `KeyError` in the source). -/
def wordlist_dict (wl : List (List Char)) (w : List Char) : Option Nat :=
  wl.enum.foldl (fun acc p => if p.2 = w then some p.1 else acc) none

/-- Indexing `self.wordlist[idx]` (all uses have `idx < 2048 ≤ len`). -/
def wordAt (wl : List (List Char)) (idx : Nat) : List Char := wl.getD idx []

/-- The loop `for i in range(0, len(bits), 11)` of `_entropy_to_mnemonic`:
each step turns the next 11-bit slice into a wordlist entry; the fuel is
the number of loop iterations. -/
def groupWordsAux (wl : List (List Char)) : Nat → List Bool → List (List Char)
  | 0, _ => []
  | n + 1, bits => wordAt wl (Py.bitsToNat (bits.take 11)) :: groupWordsAux wl n (bits.drop 11)

/-- `BIP39._entropy_to_mnemonic`: checksum is the leading bits of the
SHA-256 of the entropy; entropy bits and checksum bits are concatenated and
read off in 11-bit groups (`none` models the `ValueError` on a bad entropy
length). -/
def entropy_to_mnemonic (wl : List (List Char)) (entropy : List Nat) : Option (List Char) :=
  if entropy.length ∈ [16, 20, 24, 28, 32] then
    let checksum_length := entropy.length / 4
    let checksum := sha256 entropy
    let bits := Py.zfill (entropy.length * 8) (Py.pyBin (Py.bytesToNat entropy))
      ++ (Py.zfill 256 (Py.pyBin (Py.bytesToNat checksum))).take checksum_length
    some (Py.joinSpace (groupWordsAux wl ((bits.length + 10) / 11) bits))
  else none

/-- `BIP39.generate_mnemonic`, with the call to `secrets.token_bytes`
replaced by an explicit entropy argument (callers supply
`strength / 8` cryptographically random bytes); `none` models the
`ValueError` on an unsupported strength. -/
def generate_mnemonic (wl : List (List Char)) (strength : Nat) (entropy : List Nat) :
    Option (List Char) :=
  if strength ∈ [128, 160, 192, 224, 256] then entropy_to_mnemonic wl entropy
  else none

/-- The comprehension `[self.wordlist_dict[word] for word in words]` under
its `try`: all indices when every lookup succeeds, `None` on the first
`KeyError`. -/
def lookupAll (wl : List (List Char)) : List (List Char) → Option (List Nat)
  | [] => some []
  | t :: ts =>
    match wordlist_dict wl t, lookupAll wl ts with
    | some i, some rest => some (i :: rest)
    | _, _ => none

/-- `BIP39.validate_mnemonic`: tokenize, check the word count, resolve each
word through the reverse map (`False` on a miss), rebuild the bit string
from 11-bit word indices and compare the trailing checksum bits with the
leading bits of the SHA-256 of the recovered entropy. -/
def validate_mnemonic (wl : List (List Char)) (mnemonic : List Char) : Bool :=
  let words := Py.pySplit (Py.pyStrip mnemonic)
  if words.length ∈ [12, 15, 18, 21, 24] then
    match lookupAll wl words with
    | none => false
    | some indices =>
      let bits := (indices.map (fun idx => Py.zfill 11 (Py.pyBin idx))).flatten
      let checksum_length := words.length / 3
      let entropy_bits := bits.take (bits.length - checksum_length)
      let checksum_bits := bits.drop (bits.length - checksum_length)
      let entropy := Py.natToBytes (entropy_bits.length / 8) (Py.bitsToNat entropy_bits)
      let expected := (Py.zfill 256 (Py.pyBin (Py.bytesToNat (sha256 entropy)))).take checksum_length
      checksum_bits == expected
  else false

/-- The characters of the literal salt label `'mnemonic'`. -/
def saltLabel : List Char := ['m', 'n', 'e', 'm', 'o', 'n', 'i', 'c']

/-- `BIP39.mnemonic_to_seed`: PBKDF2-HMAC-SHA512 over the verbatim UTF-8
bytes of the mnemonic, salt `'mnemonic' + passphrase`, 2048 rounds. -/
def mnemonic_to_seed (mnemonic : List Char) (passphrase : List Char) : List Nat :=
  pbkdf2HmacSha512 (Py.utf8Encode mnemonic) (Py.utf8Encode (saltLabel ++ passphrase)) 2048

end BIP39

namespace ValidatorKey

/-- The dict returned by `ValidatorKey.generate_from_seed`. -/
structure KeyPair where
  private_key : List Nat
  public_key : List Nat

/-- The PyNaCl branch of `generate_from_seed`: `bytes(signing_key)` is the
32-byte seed the `SigningKey` was built from, and
`bytes(signing_key.verify_key)` is its ed25519 public key. -/
def generate_from_seed_nacl (seed : List Nat) : KeyPair :=
  let key_material := sha256 seed
  let private_key := key_material
  let public_key := Ed25519.ed25519Pub key_material
  ⟨private_key ++ public_key, public_key⟩

/-- The `cryptography`-library branch of `generate_from_seed`:
`Ed25519PrivateKey.from_private_bytes(key_material)` exposes the raw
ed25519 public key, and the private key is assembled as
`key_material + public_key`. -/
def generate_from_seed_crypto (seed : List Nat) : KeyPair :=
  let key_material := sha256 seed
  let public_key := Ed25519.ed25519Pub key_material
  ⟨key_material ++ public_key, public_key⟩

/-- `ValidatorKey.generate_from_seed` (the PyNaCl branch is the primary
one taken when the library is available). -/
def generate_from_seed (seed : List Nat) : KeyPair := generate_from_seed_nacl seed

/-- A hex digit as a lowercase character, as produced by `bytes.hex()`. -/
def hexDigitLower (n : Nat) : Char :=
  if n < 10 then Char.ofNat (48 + n) else Char.ofNat (87 + n)

/-- Model of `bytes.hex()`. -/
def bytesHex (bs : List Nat) : List Char :=
  (bs.map (fun b => [hexDigitLower (b / 16), hexDigitLower (b % 16)])).flatten

/-- Model of `str.upper()` on one ASCII character. -/
def pyUpperChar (c : Char) : Char :=
  if 97 ≤ c.toNat ∧ c.toNat ≤ 122 then Char.ofNat (c.toNat - 32) else c

/-- Model of `str.upper()`. -/
def pyUpper (s : List Char) : List Char := s.map pyUpperChar

/-- `ValidatorKey.generate_address`: uppercase hex of the first 20 bytes
of the SHA-256 of the public key. -/
def generate_address (public_key : List Nat) : List Char :=
  let hash_result := sha256 public_key
  let address := hash_result.take 20
  pyUpper (bytesHex address)

/-- One character of the standard base64 alphabet. -/
def b64Char (n : Nat) : Char :=
  if n < 26 then Char.ofNat (65 + n)
  else if n < 52 then Char.ofNat (97 + (n - 26))
  else if n < 62 then Char.ofNat (48 + (n - 52))
  else if n = 62 then '+'
  else '/'

/-- Standard base64 encoding with padding, as produced by
`base64.b64encode`. -/
def b64encode : List Nat → List Char
  | [] => []
  | [b1] => [b64Char (b1 / 4), b64Char (b1 % 4 * 16), '=', '=']
  | [b1, b2] => [b64Char (b1 / 4), b64Char (b1 % 4 * 16 + b2 / 16), b64Char (b2 % 16 * 4), '=']
  | b1 :: b2 :: b3 :: rest =>
    b64Char (b1 / 4) :: b64Char (b1 % 4 * 16 + b2 / 16)
      :: b64Char (b2 % 16 * 4 + b3 / 64) :: b64Char (b3 % 64) :: b64encode rest

/-- A `{type, value}` entry of the output record. -/
structure KeyField where
  ktype : List Char
  value : List Char

/-- The `priv_validator_key.json` structure. -/
structure ValidatorRecord where
  address : List Char
  pub_key : KeyField
  priv_key : KeyField

/-- The fixed public-key type tag. -/
def pubKeyTag : List Char :=
  ['t', 'e', 'n', 'd', 'e', 'r', 'm', 'i', 'n', 't', '/',
   'P', 'u', 'b', 'K', 'e', 'y', 'E', 'd', '2', '5', '5', '1', '9']

/-- The fixed private-key type tag. -/
def privKeyTag : List Char :=
  ['t', 'e', 'n', 'd', 'e', 'r', 'm', 'i', 'n', 't', '/',
   'P', 'r', 'i', 'v', 'K', 'e', 'y', 'E', 'd', '2', '5', '5', '1', '9']

/-- `ValidatorKey.create_priv_validator_key`. -/
def create_priv_validator_key (private_key public_key : List Nat) : ValidatorRecord :=
  { address := generate_address public_key,
    pub_key := ⟨pubKeyTag, b64encode public_key⟩,
    priv_key := ⟨privKeyTag, b64encode private_key⟩ }

/-- The derivation pipeline run by `main` for a supplied mnemonic:
mnemonic → seed → key pair → validator record. -/
def runPipeline (mnemonic passphrase : List Char) : ValidatorRecord :=
  let seed := BIP39.mnemonic_to_seed mnemonic passphrase
  let keys := generate_from_seed seed
  create_priv_validator_key keys.private_key keys.public_key

end ValidatorKey

namespace Spec

/-- Spec-side reading of the mnemonic encoding, written from the spec's
words: the single big-endian number `entropy-bits followed by the first
entropyBits/32 bits of SHA-256(entropy)`. -/
def bigNum (e : List Nat) : Nat :=
  Py.bytesToNat e * 2 ^ (e.length / 4) + Py.bytesToNat (sha256 e) / 2 ^ (256 - e.length / 4)

/-- Spec-side word count: one word per 11-bit group. -/
def wordCount (e : List Nat) : Nat := 3 * e.length / 4

/-- Spec-side value of the `i`-th consecutive 11-bit group (big-endian,
order preserving). -/
def wordIndex (e : List Nat) (i : Nat) : Nat :=
  bigNum e / 2 ^ (11 * (wordCount e - 1 - i)) % 2048

/-- Spec-side word sequence of the encoded mnemonic. -/
def mnemonicWords (wl : List (List Char)) (e : List Nat) : List (List Char) :=
  (List.range (wordCount e)).map fun i => BIP39.wordAt wl (wordIndex e i)

/-- The value of a word-index sequence read as consecutive 11-bit groups. -/
def indicesNum (idxs : List Nat) : Nat := idxs.foldl (fun a i => 2048 * a + i) 0

/-- Spec-side checksum condition for validation: the trailing
`wordCount/3` bits of the reconstructed bit string equal the leading
`wordCount/3` bits of the SHA-256 of the entropy part. -/
def checksumOk (idxs : List Nat) : Prop :=
  indicesNum idxs % 2 ^ (idxs.length / 3) =
    Py.bytesToNat (sha256 (Py.natToBytes (4 * idxs.length / 3)
      (indicesNum idxs / 2 ^ (idxs.length / 3)))) / 2 ^ (256 - idxs.length / 3)

/-- An uppercase hexadecimal character. -/
def isUpperHexDigit (c : Char) : Prop :=
  (48 ≤ c.toNat ∧ c.toNat ≤ 57) ∨ (65 ≤ c.toNat ∧ c.toNat ≤ 70)

end Spec

namespace Fixture

/-- A 46-character alphabet (no whitespace) for building a test wordlist. -/
def alphabet : List Char :=
  ['A', 'B', 'C', 'D', 'E', 'F', 'G', 'H', 'I', 'J', 'K', 'L', 'M',
   'N', 'O', 'P', 'Q', 'R', 'S', 'T', 'U', 'V', 'W', 'X', 'Y', 'Z',
   'a', 'b', 'c', 'd', 'e', 'f', 'g', 'h', 'i', 'j', 'k', 'l', 'm',
   'n', 'o', 'p', 'q', 'r', 's', 't']

/-- The word `abandon` (index 0 of the standard English wordlist). -/
def abandonWord : List Char := ['a', 'b', 'a', 'n', 'd', 'o', 'n']

/-- The word `about` (index 3 of the standard English wordlist). -/
def aboutWord : List Char := ['a', 'b', 'o', 'u', 't']

/-- The `i`-th word of the test wordlist: `abandon` and `about` occupy
their standard positions, every other index gets a distinct two-letter
word. -/
def wlWord (i : Nat) : List Char :=
  if i = 0 then abandonWord
  else if i = 3 then aboutWord
  else [alphabet.getD (i / 46) 'A', alphabet.getD (i % 46) 'A']

/-- A 2048-entry wordlist satisfying the spec's invariants (2048 distinct,
nonempty, whitespace-free words). -/
def wlTest : List (List Char) := (List.range 2048).map wlWord

/-- The BIP39 test-vector mnemonic: eleven times `abandon` then `about`
(the encoding of 16 zero bytes). -/
def vectorMnemonic : List Char :=
  Py.joinSpace (List.replicate 11 abandonWord ++ [aboutWord])

/-- The published 64-byte PBKDF2 seed of `vectorMnemonic` with empty
passphrase. -/
def vectorSeed : List Nat :=
  [94, 176, 11, 189, 220, 240, 105, 8, 72, 137, 168, 171, 145, 85, 86, 129,
   101, 245, 196, 83, 204, 184, 94, 112, 129, 26, 174, 214, 246, 218, 95, 193,
   154, 90, 196, 11, 56, 156, 211, 112, 208, 134, 32, 109, 236, 138, 166, 196,
   61, 174, 166, 105, 15, 32, 173, 61, 141, 72, 178, 210, 206, 158, 56, 228]

/-- `vectorMnemonic` with one trailing space: same token sequence,
different raw bytes. -/
def vectorMnemonicSpace : List Char := vectorMnemonic ++ [' ']

/-- The 64-byte PBKDF2 seed of `vectorMnemonicSpace` with empty
passphrase. -/
def spacedSeed : List Nat :=
  [175, 189, 52, 80, 142, 234, 138, 27, 95, 237, 209, 95, 64, 92, 72, 120,
   50, 114, 84, 224, 160, 226, 255, 154, 43, 168, 140, 33, 1, 185, 100, 188,
   216, 167, 74, 222, 132, 217, 185, 189, 12, 74, 61, 87, 61, 219, 209, 143,
   86, 132, 191, 246, 148, 32, 126, 66, 205, 146, 193, 215, 237, 83, 119, 133]

end Fixture

namespace Py

/-- A word usable in a wordlist: nonempty and free of whitespace. -/
def goodWord (w : List Char) : Prop :=
  w ≠ [] ∧ ∀ c ∈ w, isPySpace c = false

theorem natToBits_length (k x : Nat) : (natToBits k x).length = k := by
  induction k generalizing x with
  | zero => rfl
  | succ k ih => simp [natToBits, ih]

theorem bitsToNat_go (bs : List Bool) (a : Nat) :
    bs.foldl (fun a b => 2 * a + b.toNat) a
      = a * 2 ^ bs.length + bs.foldl (fun a b => 2 * a + b.toNat) 0 := by
  induction bs generalizing a with
  | nil => simp
  | cons b bs ih =>
    simp only [List.foldl_cons, List.length_cons]
    rw [ih, ih (2 * 0 + b.toNat)]
    ring

theorem bitsToNat_append (a b : List Bool) :
    bitsToNat (a ++ b) = bitsToNat a * 2 ^ b.length + bitsToNat b := by
  simp only [bitsToNat, List.foldl_append]
  rw [bitsToNat_go]

theorem bitsToNat_singleton (b : Bool) : bitsToNat [b] = b.toNat := by
  cases b <;> rfl

theorem bitsToNat_lt (bs : List Bool) : bitsToNat bs < 2 ^ bs.length := by
  induction bs with
  | nil => simp [bitsToNat]
  | cons b bs ih =>
    have h : bitsToNat (b :: bs) = b.toNat * 2 ^ bs.length + bitsToNat bs := by
      have := bitsToNat_append [b] bs
      simpa [bitsToNat_singleton] using this
    have hp : 2 ^ (b :: bs).length = 2 * 2 ^ bs.length := by
      simp [List.length_cons, Nat.pow_succ, Nat.mul_comm]
    rw [h, hp]
    cases b <;> simp [Bool.toNat] <;> omega

theorem mod_two_pow_succ (x k : Nat) : x % 2 ^ (k + 1) = 2 * (x / 2 % 2 ^ k) + x % 2 := by
  have h1 : x % 2 ^ (k + 1) % 2 = x % 2 := by
    apply Nat.mod_mod_of_dvd
    exact dvd_pow_self 2 (Nat.succ_ne_zero k)
  have h2 : x % 2 ^ (k + 1) / 2 = x / 2 % 2 ^ k := by
    have := Nat.mod_mul_right_div_self x 2 (2 ^ k)
    rwa [← Nat.pow_succ'] at this
  omega

theorem bitsToNat_natToBits (k x : Nat) : bitsToNat (natToBits k x) = x % 2 ^ k := by
  induction k generalizing x with
  | zero => simp [natToBits, bitsToNat, Nat.mod_one]
  | succ k ih =>
    rw [natToBits, bitsToNat_append, ih, bitsToNat_singleton]
    simp only [List.length_singleton, Nat.pow_one]
    have hb : (x % 2 == 1).toNat = x % 2 := by
      rcases Nat.mod_two_eq_zero_or_one x with h | h <;> rw [h] <;> rfl
    rw [hb, mod_two_pow_succ x k]
    ring

theorem natToBits_zero (k : Nat) : natToBits k 0 = List.replicate k false := by
  induction k with
  | zero => rfl
  | succ k ih => rw [natToBits, Nat.zero_div, ih, List.replicate_succ']; rfl

theorem natToBits_split (j k x : Nat) :
    natToBits (j + k) x = natToBits j (x / 2 ^ k) ++ natToBits k x := by
  induction k generalizing x with
  | zero => simp [natToBits]
  | succ k ih =>
    have hidx : j + (k + 1) = (j + k) + 1 := rfl
    rw [hidx, natToBits, ih, natToBits]
    rw [Nat.div_div_eq_div_mul, ← Nat.pow_succ']
    simp [List.append_assoc, Nat.pow_succ']

theorem natToBits_mod (k x : Nat) : natToBits k (x % 2 ^ k) = natToBits k x := by
  induction k generalizing x with
  | zero => rfl
  | succ k ih =>
    rw [natToBits, natToBits]
    have h2 : x % 2 ^ (k + 1) / 2 = x / 2 % 2 ^ k := by
      have := Nat.mod_mul_right_div_self x 2 (2 ^ k)
      rwa [← Nat.pow_succ'] at this
    have h1 : x % 2 ^ (k + 1) % 2 = x % 2 := by
      apply Nat.mod_mod_of_dvd
      exact dvd_pow_self 2 (Nat.succ_ne_zero k)
    rw [h2, ih, h1]

theorem natToBits_take (j k x : Nat) :
    (natToBits (j + k) x).take j = natToBits j (x / 2 ^ k) := by
  rw [natToBits_split]
  exact List.take_left' (natToBits_length j (x / 2 ^ k))

theorem natToBits_drop (j k x : Nat) :
    (natToBits (j + k) x).drop j = natToBits k x := by
  rw [natToBits_split]
  exact List.drop_left' (natToBits_length j (x / 2 ^ k))

theorem bitLenFuel_lt (fuel x : Nat) (hf : x ≤ fuel) : x < 2 ^ bitLenFuel fuel x := by
  induction fuel generalizing x with
  | zero =>
    have : x = 0 := by omega
    simp [this, bitLenFuel]
  | succ fuel ih =>
    by_cases hx : x = 0
    · simp [hx, bitLenFuel]
    · rw [bitLenFuel, if_neg hx]
      have hrec : x / 2 < 2 ^ bitLenFuel fuel (x / 2) := ih (x / 2) (by omega)
      rw [Nat.pow_succ]
      omega

theorem bitLenFuel_le (fuel x k : Nat) (hx : x < 2 ^ k) : bitLenFuel fuel x ≤ k := by
  induction fuel generalizing x k with
  | zero => simp [bitLenFuel]
  | succ fuel ih =>
    by_cases hx0 : x = 0
    · simp [hx0, bitLenFuel]
    · rw [bitLenFuel, if_neg hx0]
      cases k with
      | zero =>
        simp at hx
        omega
      | succ k =>
        have hdiv : x / 2 < 2 ^ k := by
          rw [Nat.pow_succ] at hx
          omega
        have := ih (x / 2) k hdiv
        omega

theorem pyBin_lt (x : Nat) : x < 2 ^ pyBinLen x := by
  unfold pyBinLen
  have h1 := bitLenFuel_lt x x (Nat.le_refl x)
  have h2 : 2 ^ bitLenFuel x x ≤ 2 ^ max 1 (bitLenFuel x x) :=
    Nat.pow_le_pow_right (by norm_num) (Nat.le_max_right _ _)
  omega

theorem pyBinLen_le (k x : Nat) (hx : x < 2 ^ k) (hk : 0 < k) : pyBinLen x ≤ k := by
  unfold pyBinLen
  have h1 := bitLenFuel_le x x k hx
  omega

theorem zfill_pyBin (k x : Nat) (hx : x < 2 ^ k) (hk : 0 < k) :
    zfill k (pyBin x) = natToBits k x := by
  unfold zfill pyBin
  set L := pyBinLen x with hL
  have hLk : L ≤ k := pyBinLen_le k x hx hk
  have hxL : x < 2 ^ L := pyBin_lt x
  rw [natToBits_length]
  have hkk : (k - L) + L = k := Nat.sub_add_cancel hLk
  calc List.replicate (k - L) false ++ natToBits L x
      = natToBits (k - L) (x / 2 ^ L) ++ natToBits L x := by
        rw [Nat.div_eq_of_lt hxL, natToBits_zero]
    _ = natToBits ((k - L) + L) x := (natToBits_split (k - L) L x).symm
    _ = natToBits k x := by rw [hkk]

theorem bytesToNat_go (bs : List Nat) (a : Nat) :
    bs.foldl (fun a b => 256 * a + b) a
      = a * 256 ^ bs.length + bs.foldl (fun a b => 256 * a + b) 0 := by
  induction bs generalizing a with
  | nil => simp
  | cons b bs ih =>
    simp only [List.foldl_cons, List.length_cons]
    rw [ih, ih (256 * 0 + b)]
    ring

theorem bytesToNat_append (a b : List Nat) :
    bytesToNat (a ++ b) = bytesToNat a * 256 ^ b.length + bytesToNat b := by
  simp only [bytesToNat, List.foldl_append]
  rw [bytesToNat_go]

theorem bytesToNat_singleton (b : Nat) : bytesToNat [b] = b := by
  simp [bytesToNat]

theorem bytesToNat_lt (bs : List Nat) (h : ∀ b ∈ bs, b < 256) :
    bytesToNat bs < 256 ^ bs.length := by
  induction bs with
  | nil => simp [bytesToNat]
  | cons b bs ih =>
    have hb : b < 256 := h b (List.mem_cons_self b bs)
    have hrec : bytesToNat bs < 256 ^ bs.length := ih fun x hx => h x (List.mem_cons_of_mem b hx)
    have hc : bytesToNat (b :: bs) = b * 256 ^ bs.length + bytesToNat bs := by
      have := bytesToNat_append [b] bs
      simpa [bytesToNat_singleton] using this
    have hp : 256 ^ (b :: bs).length = 256 * 256 ^ bs.length := by
      simp [List.length_cons, Nat.pow_succ, Nat.mul_comm]
    rw [hc, hp]
    have h1 : b * 256 ^ bs.length + bytesToNat bs < b * 256 ^ bs.length + 256 ^ bs.length := by
      omega
    have h2 : b * 256 ^ bs.length + 256 ^ bs.length = (b + 1) * 256 ^ bs.length := by ring
    have h3 : (b + 1) * 256 ^ bs.length ≤ 256 * 256 ^ bs.length :=
      Nat.mul_le_mul_right _ (by omega)
    omega

theorem natToBytes_length (k x : Nat) : (natToBytes k x).length = k := by
  induction k generalizing x with
  | zero => rfl
  | succ k ih => simp [natToBytes, ih]

theorem natToBytes_bytesToNat (bs : List Nat) (h : ∀ b ∈ bs, b < 256) :
    natToBytes bs.length (bytesToNat bs) = bs := by
  induction bs using List.reverseRecOn with
  | nil => rfl
  | append_singleton as b ih =>
    have hb : b < 256 := h b (by simp)
    have has : ∀ x ∈ as, x < 256 := fun x hx => h x (by simp [hx])
    rw [bytesToNat_append, bytesToNat_singleton]
    have hlen : (as ++ [b]).length = as.length + 1 := by simp
    rw [hlen, natToBytes]
    have hdiv : (bytesToNat as * 256 ^ [b].length + b) / 256 = bytesToNat as := by
      simp only [List.length_singleton, Nat.pow_one]
      rw [Nat.mul_comm, Nat.mul_add_div (by norm_num), Nat.div_eq_of_lt hb]
      omega
    have hmod : (bytesToNat as * 256 ^ [b].length + b) % 256 = b := by
      simp only [List.length_singleton, Nat.pow_one]
      omega
    rw [hdiv, hmod, ih has]

end Py

namespace Py

theorem pySplitAux_token (t s acc : List Char) (ht : ∀ c ∈ t, isPySpace c = false) :
    pySplitAux (t ++ s) acc = pySplitAux s (t.reverse ++ acc) := by
  induction t generalizing acc with
  | nil => simp
  | cons c t ih =>
    have hc : isPySpace c = false := ht c (List.mem_cons_self c t)
    simp only [List.cons_append, pySplitAux, hc, Bool.false_eq_true, if_false, List.append_eq]
    rw [ih (c :: acc) (fun x hx => ht x (List.mem_cons_of_mem c hx))]
    simp [List.reverse_cons, List.append_assoc]

theorem joinSpace_ne_nil (w : List Char) (ws : List (List Char)) (hne : w ≠ []) :
    joinSpace (w :: ws) ≠ [] := by
  cases ws with
  | nil => simpa [joinSpace] using hne
  | cons w2 ws2 =>
    simp only [joinSpace]
    intro hcon
    rcases List.append_eq_nil.mp hcon with ⟨h1, h2⟩
    exact hne h1

theorem pySplit_join (ws : List (List Char)) (h : ∀ w ∈ ws, goodWord w) :
    pySplit (joinSpace ws) = ws := by
  induction ws with
  | nil => rfl
  | cons w ws ih =>
    obtain ⟨hne, hchars⟩ := h w (List.mem_cons_self w ws)
    cases ws with
    | nil =>
      show pySplitAux (joinSpace [w]) [] = [w]
      have hj : joinSpace [w] = w ++ [] := by simp [joinSpace]
      rw [hj, pySplitAux_token w [] [] hchars]
      simp only [pySplitAux, List.append_nil]
      have hrev : w.reverse.isEmpty = false := by
        simp [List.isEmpty_iff, hne]
      rw [hrev]
      simp
    | cons w2 ws2 =>
      have hj : joinSpace (w :: w2 :: ws2) = w ++ ' ' :: joinSpace (w2 :: ws2) := rfl
      show pySplitAux (joinSpace (w :: w2 :: ws2)) [] = w :: w2 :: ws2
      rw [hj, pySplitAux_token w (' ' :: joinSpace (w2 :: ws2)) [] hchars]
      simp only [pySplitAux, List.append_nil]
      have hsp : isPySpace ' ' = true := by decide
      rw [hsp]
      have hrev : w.reverse.isEmpty = false := by
        simp [List.isEmpty_iff, hne]
      simp only [if_true, hrev, if_false]
      rw [List.reverse_reverse]
      exact congrArg (w :: ·) (ih fun x hx => h x (List.mem_cons_of_mem w hx))

theorem dropWhile_eq_self_of_head? (p : Char → Bool) (s : List Char)
    (h : ∀ c, s.head? = some c → p c = false) : s.dropWhile p = s := by
  cases s with
  | nil => rfl
  | cons c t =>
    rw [List.dropWhile_cons_of_neg]
    simp [h c rfl]

theorem joinSpace_head? (w : List Char) (ws : List (List Char)) (hne : w ≠ []) :
    (joinSpace (w :: ws)).head? = w.head? := by
  cases w with
  | nil => exact absurd rfl hne
  | cons c t =>
    cases ws with
    | nil => rfl
    | cons w2 ws2 => rfl

theorem joinSpace_getLast?_mem (ws : List (List Char)) (h : ∀ w ∈ ws, w ≠ [])
    (hne : ws ≠ []) :
    ∃ c, (joinSpace ws).getLast? = some c ∧ ∃ w, w ∈ ws ∧ c ∈ w := by
  induction ws with
  | nil => exact absurd rfl hne
  | cons w ws ih =>
    cases ws with
    | nil =>
      have hw : w ≠ [] := h w (List.mem_cons_self w [])
      refine ⟨w.getLast hw, ?_, w, List.mem_cons_self w [], List.getLast_mem hw⟩
      have hj : joinSpace [w] = w := by simp [joinSpace]
      rw [hj]
      exact List.getLast?_eq_getLast w hw
    | cons w2 ws2 =>
      obtain ⟨c, hc, w', hw', hcw⟩ :=
        ih (fun x hx => h x (List.mem_cons_of_mem w hx)) (by simp)
      refine ⟨c, ?_, w', List.mem_cons_of_mem w hw', hcw⟩
      have hj : joinSpace (w :: w2 :: ws2) = w ++ ' ' :: joinSpace (w2 :: ws2) := rfl
      rw [hj, List.getLast?_append]
      have hcons : (' ' :: joinSpace (w2 :: ws2)).getLast? = some c := by
        have : (' ' :: joinSpace (w2 :: ws2)) = [' '] ++ joinSpace (w2 :: ws2) := rfl
        rw [this, List.getLast?_append, hc]
        rfl
      rw [hcons]
      rfl

theorem pyStrip_joinSpace (ws : List (List Char)) (h : ∀ w ∈ ws, goodWord w) :
    pyStrip (joinSpace ws) = joinSpace ws := by
  cases ws with
  | nil => rfl
  | cons w ws2 =>
    unfold pyStrip
    have h1 : (joinSpace (w :: ws2)).dropWhile isPySpace = joinSpace (w :: ws2) := by
      apply dropWhile_eq_self_of_head?
      intro c hc
      rw [joinSpace_head? w ws2 (h w (List.mem_cons_self w ws2)).1] at hc
      exact (h w (List.mem_cons_self w ws2)).2 c (List.mem_of_mem_head? hc)
    rw [h1]
    have h2 : (joinSpace (w :: ws2)).reverse.dropWhile isPySpace
        = (joinSpace (w :: ws2)).reverse := by
      apply dropWhile_eq_self_of_head?
      intro c hc
      rw [List.head?_reverse] at hc
      obtain ⟨c', hc', wx, hwx, hcw⟩ :=
        joinSpace_getLast?_mem (w :: ws2) (fun x hx => (h x hx).1) (by simp)
      rw [hc'] at hc
      have hcc : c' = c := by injection hc
      rw [hcc] at hcw
      exact (h wx hwx).2 c hcw
    rw [h2, List.reverse_reverse]

theorem tokenize_joinSpace (ws : List (List Char)) (h : ∀ w ∈ ws, goodWord w) :
    pySplit (pyStrip (joinSpace ws)) = ws := by
  rw [pyStrip_joinSpace ws h, pySplit_join ws h]

end Py

namespace BIP39

theorem dictFold_result (l : List (Nat × List Char)) (w : List Char) (acc : Option Nat) (i : Nat)
    (h : l.foldl (fun acc p => if p.2 = w then some p.1 else acc) acc = some i) :
    acc = some i ∨ ∃ p ∈ l, p.1 = i ∧ p.2 = w := by
  induction l generalizing acc with
  | nil => exact Or.inl h
  | cons p l ih =>
    simp only [List.foldl_cons] at h
    rcases ih _ h with hstep | ⟨q, hq, hqi, hqw⟩
    · by_cases hpw : p.2 = w
      · rw [if_pos hpw] at hstep
        right
        exact ⟨p, List.mem_cons_self p l, by injection hstep, hpw⟩
      · rw [if_neg hpw] at hstep
        exact Or.inl hstep
    · right
      exact ⟨q, List.mem_cons_of_mem p hq, hqi, hqw⟩

theorem wordlist_dict_lt (wl : List (List Char)) (w : List Char) (i : Nat)
    (h : wordlist_dict wl w = some i) : i < wl.length := by
  rcases dictFold_result wl.enum w none i h with hc | ⟨p, hp, hpi, _⟩
  · exact absurd hc (by simp)
  · have hg := List.mem_enum_iff_getElem?.mp hp
    have := List.getElem?_eq_some.mp hg
    obtain ⟨hlt, _⟩ := this
    omega

theorem dictFold_unique (l : List (Nat × List Char)) (acc : Option Nat) (w : List Char) (i : Nat)
    (hmem : (i, w) ∈ l) (huniq : ∀ p ∈ l, p.2 = w → p.1 = i) :
    l.foldl (fun acc p => if p.2 = w then some p.1 else acc) acc = some i := by
  induction l using List.reverseRecOn with
  | nil => cases hmem
  | append_singleton as p ih =>
    rw [List.foldl_append]
    simp only [List.foldl_cons, List.foldl_nil]
    by_cases hp : p.2 = w
    · rw [if_pos hp]
      exact congrArg some (huniq p (by simp) hp)
    · rw [if_neg hp]
      apply ih
      · rcases List.mem_append.mp hmem with h1 | h1
        · exact h1
        · exfalso
          have : (i, w) = p := by simpa using h1
          exact hp (by rw [← this])
      · intro q hq hqw
        exact huniq q (List.mem_append_left _ hq) hqw

theorem wordlist_dict_get (wl : List (List Char)) (hnd : wl.Nodup) (i : Nat)
    (hi : i < wl.length) :
    wordlist_dict wl (wl.getD i []) = some i := by
  have hget : wl.getD i [] = wl[i] := List.getD_eq_getElem wl [] hi
  rw [hget]
  apply dictFold_unique
  · exact List.mem_enum_iff_getElem?.mpr (List.getElem?_eq_getElem hi)
  · intro p hp hpw
    have hg := List.mem_enum_iff_getElem?.mp hp
    obtain ⟨hlt, hval⟩ := List.getElem?_eq_some.mp hg
    rw [← hval] at hpw
    exact (List.Nodup.getElem_inj_iff hnd).mp hpw

theorem lookupAll_map (wl : List (List Char)) (hnd : wl.Nodup) (l : List Nat)
    (hl : ∀ i ∈ l, i < wl.length) :
    lookupAll wl (l.map (wordAt wl)) = some l := by
  induction l with
  | nil => rfl
  | cons i l ih =>
    have hi : i < wl.length := hl i (List.mem_cons_self i l)
    have hrest : lookupAll wl (l.map (wordAt wl)) = some l :=
      ih fun x hx => hl x (List.mem_cons_of_mem i hx)
    have hone : wordlist_dict wl (wordAt wl i) = some i := wordlist_dict_get wl hnd i hi
    simp only [List.map_cons, lookupAll, hone, hrest]

theorem lookupAll_bounds (wl : List (List Char)) (ts : List (List Char)) (idxs : List Nat)
    (h : lookupAll wl ts = some idxs) :
    idxs.length = ts.length ∧ ∀ i ∈ idxs, i < wl.length := by
  induction ts generalizing idxs with
  | nil =>
    have hn : idxs = [] := by
      simpa [lookupAll] using h.symm
    subst hn
    simp
  | cons t ts ih =>
    simp only [lookupAll] at h
    rcases hw : wordlist_dict wl t with _ | a
    · rw [hw] at h
      cases h
    · rw [hw] at h
      rcases hr : lookupAll wl ts with _ | rest
      · rw [hr] at h
        cases h
      · rw [hr] at h
        have heq : a :: rest = idxs := by injection h
        subst heq
        obtain ⟨hlen, hall⟩ := ih rest hr
        refine ⟨by simp [hlen], ?_⟩
        intro i hi
        rcases List.mem_cons.mp hi with rfl | hmem
        · exact wordlist_dict_lt wl t i hw
        · exact hall i hmem

end BIP39

theorem word32Bytes_lt (w : Nat) : ∀ b ∈ SHA2.word32Bytes w, b < 256 := by
  intro b hb
  simp only [SHA2.word32Bytes, List.mem_cons, List.not_mem_nil, or_false] at hb
  rcases hb with rfl | rfl | rfl | rfl <;> exact Nat.mod_lt _ (by norm_num)

theorem sha256_length (msg : List Nat) : (sha256 msg).length = 32 := by
  simp [sha256, SHA2.digest256, SHA2.word32Bytes]

theorem sha256_lt (msg : List Nat) : ∀ b ∈ sha256 msg, b < 256 := by
  intro b hb
  simp only [sha256, SHA2.digest256, List.mem_append] at hb
  rcases hb with ((((((h | h) | h) | h) | h) | h) | h) | h <;> exact word32Bytes_lt _ b h

theorem sha256_toNat_lt (msg : List Nat) : Py.bytesToNat (sha256 msg) < 2 ^ 256 := by
  have h := Py.bytesToNat_lt (sha256 msg) (sha256_lt msg)
  rw [sha256_length] at h
  have h2 : (256 : Nat) ^ 32 = 2 ^ 256 := by norm_num
  omega

namespace Spec

theorem indicesNum_go (l : List Nat) (a : Nat) :
    l.foldl (fun a i => 2048 * a + i) a
      = a * 2048 ^ l.length + l.foldl (fun a i => 2048 * a + i) 0 := by
  induction l generalizing a with
  | nil => simp
  | cons i l ih =>
    simp only [List.foldl_cons, List.length_cons]
    rw [ih, ih (2048 * 0 + i)]
    ring

theorem indicesNum_cons (i : Nat) (l : List Nat) :
    indicesNum (i :: l) = i * 2048 ^ l.length + indicesNum l := by
  simp only [indicesNum, List.foldl_cons]
  rw [indicesNum_go]
  ring_nf

theorem indicesNum_lt (l : List Nat) (h : ∀ i ∈ l, i < 2048) :
    indicesNum l < 2048 ^ l.length := by
  induction l with
  | nil => simp [indicesNum]
  | cons i l ih =>
    have hi : i < 2048 := h i (List.mem_cons_self i l)
    have hrec : indicesNum l < 2048 ^ l.length :=
      ih fun x hx => h x (List.mem_cons_of_mem i hx)
    rw [indicesNum_cons]
    have hp : 2048 ^ (i :: l).length = 2048 * 2048 ^ l.length := by
      simp [List.length_cons, Nat.pow_succ, Nat.mul_comm]
    rw [hp]
    have h2 : (i + 1) * 2048 ^ l.length ≤ 2048 * 2048 ^ l.length :=
      Nat.mul_le_mul_right _ (by omega)
    have h3 : i * 2048 ^ l.length + 2048 ^ l.length = (i + 1) * 2048 ^ l.length := by ring
    omega

theorem pow2048_eq (n : Nat) : (2048 : Nat) ^ n = 2 ^ (11 * n) := by
  have : (2048 : Nat) = 2 ^ 11 := by norm_num
  rw [this, ← Nat.pow_mul]

end Spec

theorem natToBits_inj_iff (k a b : Nat) :
    Py.natToBits k a = Py.natToBits k b ↔ a % 2 ^ k = b % 2 ^ k := by
  constructor
  · intro h
    have := congrArg Py.bitsToNat h
    rwa [Py.bitsToNat_natToBits, Py.bitsToNat_natToBits] at this
  · intro h
    rw [← Py.natToBits_mod k a, ← Py.natToBits_mod k b, h]

namespace BIP39

theorem groupWords_natToBits (wl : List (List Char)) (k x : Nat) :
    groupWordsAux wl k (Py.natToBits (11 * k) x)
      = (List.range k).map (fun i => wordAt wl (x / 2 ^ (11 * (k - 1 - i)) % 2048)) := by
  induction k generalizing x with
  | zero => simp [groupWordsAux]
  | succ k ih =>
    have hsplit : 11 * (k + 1) = 11 + 11 * k := by ring
    rw [hsplit, Py.natToBits_split]
    simp only [groupWordsAux]
    rw [List.take_left' (Py.natToBits_length 11 (x / 2 ^ (11 * k))),
        List.drop_left' (Py.natToBits_length 11 (x / 2 ^ (11 * k)))]
    rw [Py.bitsToNat_natToBits, ih x]
    rw [List.range_succ_eq_map, List.map_cons, List.map_map]
    have hhead : (2 : Nat) ^ 11 = 2048 := by norm_num
    have hidx0 : 11 * (k + 1 - 1 - 0) = 11 * k := by omega
    rw [hidx0, hhead]
    congr 1
    apply List.map_congr_left
    intro i _
    simp only [Function.comp]
    have harg : k - (i + 1) = k - 1 - i := by omega
    simp [harg]

theorem flatten_natToBits (idxs : List Nat) (h : ∀ i ∈ idxs, i < 2048) :
    (idxs.map (fun i => Py.natToBits 11 i)).flatten
      = Py.natToBits (11 * idxs.length) (Spec.indicesNum idxs) := by
  induction idxs with
  | nil => simp [Spec.indicesNum, Py.natToBits]
  | cons i l ih =>
    have hi : i < 2048 := h i (List.mem_cons_self i l)
    have hrec := ih fun x hx => h x (List.mem_cons_of_mem i hx)
    have hlt : Spec.indicesNum l < 2048 ^ l.length :=
      Spec.indicesNum_lt l fun x hx => h x (List.mem_cons_of_mem i hx)
    simp only [List.map_cons, List.flatten_cons, hrec]
    have hlen : 11 * (i :: l).length = 11 + 11 * l.length := by
      simp [List.length_cons]
      ring
    rw [hlen, Py.natToBits_split]
    have hpow : (2048 : Nat) ^ l.length = 2 ^ (11 * l.length) := Spec.pow2048_eq l.length
    have hpos : 0 < (2048 : Nat) ^ l.length := Nat.pos_pow_of_pos _ (by norm_num)
    have hdiv : Spec.indicesNum (i :: l) / 2 ^ (11 * l.length) = i := by
      rw [Spec.indicesNum_cons, ← hpow, Nat.mul_comm i, Nat.mul_add_div hpos,
        Nat.div_eq_of_lt hlt]
      omega
    have hmod : Spec.indicesNum (i :: l) % 2 ^ (11 * l.length) = Spec.indicesNum l := by
      rw [Spec.indicesNum_cons, ← hpow, Nat.mul_comm i, Nat.mul_add_mod, Nat.mod_eq_of_lt hlt]
    rw [hdiv, ← Py.natToBits_mod (11 * l.length) (Spec.indicesNum (i :: l)), hmod]

end BIP39

theorem pow256_eq (n : Nat) : (256 : Nat) ^ n = 2 ^ (8 * n) := by
  have h : (256 : Nat) = 2 ^ 8 := by norm_num
  rw [h, ← Nat.pow_mul]

theorem bytesToNat_lt_pow2 (bs : List Nat) (h : ∀ b ∈ bs, b < 256) :
    Py.bytesToNat bs < 2 ^ (bs.length * 8) := by
  have h1 := Py.bytesToNat_lt bs h
  rw [pow256_eq bs.length, Nat.mul_comm 8] at h1
  exact h1

theorem encoder_bits (e : List Nat) (hb : ∀ b ∈ e, b < 256) (hlen : 0 < e.length)
    (hc : e.length / 4 ≤ 256) :
    Py.zfill (e.length * 8) (Py.pyBin (Py.bytesToNat e))
      ++ (Py.zfill 256 (Py.pyBin (Py.bytesToNat (sha256 e)))).take (e.length / 4)
    = Py.natToBits (e.length * 8 + e.length / 4) (Spec.bigNum e) := by
  have hE : Py.bytesToNat e < 2 ^ (e.length * 8) := bytesToNat_lt_pow2 e hb
  have hH : Py.bytesToNat (sha256 e) < 2 ^ 256 := sha256_toNat_lt e
  have h1 : Py.zfill (e.length * 8) (Py.pyBin (Py.bytesToNat e))
      = Py.natToBits (e.length * 8) (Py.bytesToNat e) :=
    Py.zfill_pyBin _ _ hE (by omega)
  have h2 : Py.zfill 256 (Py.pyBin (Py.bytesToNat (sha256 e)))
      = Py.natToBits 256 (Py.bytesToNat (sha256 e)) :=
    Py.zfill_pyBin _ _ hH (by norm_num)
  have h256 : e.length / 4 + (256 - e.length / 4) = 256 := by omega
  have h3 : (Py.natToBits 256 (Py.bytesToNat (sha256 e))).take (e.length / 4)
      = Py.natToBits (e.length / 4)
          (Py.bytesToNat (sha256 e) / 2 ^ (256 - e.length / 4)) := by
    have ht := Py.natToBits_take (e.length / 4) (256 - e.length / 4)
      (Py.bytesToNat (sha256 e))
    rwa [h256] at ht
  set c := e.length / 4 with hcdef
  set E := Py.bytesToNat e with hEdef
  set cs := Py.bytesToNat (sha256 e) / 2 ^ (256 - c) with hcsdef
  have hcs_lt : cs < 2 ^ c := by
    rw [hcsdef]
    have hpos : 0 < (2 : Nat) ^ (256 - c) := Nat.pos_pow_of_pos _ (by norm_num)
    rw [Nat.div_lt_iff_lt_mul hpos, ← Nat.pow_add]
    have hex : c + (256 - c) = 256 := by omega
    rw [hex]
    exact hH
  have hsplit : Py.natToBits (e.length * 8 + c) (Spec.bigNum e)
      = Py.natToBits (e.length * 8) ((Spec.bigNum e) / 2 ^ c)
        ++ Py.natToBits c (Spec.bigNum e) := Py.natToBits_split _ _ _
  have hbig : Spec.bigNum e = E * 2 ^ c + cs := rfl
  have hposc : 0 < (2 : Nat) ^ c := Nat.pos_pow_of_pos _ (by norm_num)
  have hdiv : Spec.bigNum e / 2 ^ c = E := by
    rw [hbig, Nat.mul_comm E, Nat.mul_add_div hposc, Nat.div_eq_of_lt hcs_lt]
    omega
  have hmod : Py.natToBits c (Spec.bigNum e) = Py.natToBits c cs := by
    rw [← Py.natToBits_mod c (Spec.bigNum e), hbig, Nat.mul_comm E, Nat.mul_add_mod,
      Nat.mod_eq_of_lt hcs_lt]
  rw [h1, h2, h3, hsplit, hdiv, hmod]

theorem entropy_to_mnemonic_eq (wl : List (List Char)) (e : List Nat)
    (he : e.length ∈ [16, 20, 24, 28, 32]) (hb : ∀ b ∈ e, b < 256) :
    BIP39.entropy_to_mnemonic wl e
      = some (Py.joinSpace (Spec.mnemonicWords wl e)) := by
  have hn : e.length = 16 ∨ e.length = 20 ∨ e.length = 24 ∨ e.length = 28 ∨ e.length = 32 := by
    simpa using he
  have h1 : 0 < e.length := by omega
  have h2 : e.length / 4 ≤ 256 := by omega
  simp only [BIP39.entropy_to_mnemonic]
  rw [if_pos he]
  rw [encoder_bits e hb h1 h2]
  have hwc : e.length * 8 + e.length / 4 = 11 * Spec.wordCount e := by
    unfold Spec.wordCount
    omega
  have hcount : ((Py.natToBits (e.length * 8 + e.length / 4) (Spec.bigNum e)).length + 10) / 11
      = Spec.wordCount e := by
    rw [Py.natToBits_length]
    unfold Spec.wordCount
    omega
  rw [hcount, hwc, BIP39.groupWords_natToBits]
  rfl

theorem sha_checksum_bits (bs : List Nat) (c : Nat) (hc : c ≤ 256) :
    (Py.zfill 256 (Py.pyBin (Py.bytesToNat (sha256 bs)))).take c
      = Py.natToBits c (Py.bytesToNat (sha256 bs) / 2 ^ (256 - c)) := by
  rw [Py.zfill_pyBin 256 _ (sha256_toNat_lt bs) (by norm_num)]
  have ht := Py.natToBits_take c (256 - c) (Py.bytesToNat (sha256 bs))
  have hsum : c + (256 - c) = 256 := by omega
  rwa [hsum] at ht

theorem checksum_div_lt (bs : List Nat) (c : Nat) (hc : c ≤ 256) :
    Py.bytesToNat (sha256 bs) / 2 ^ (256 - c) < 2 ^ c := by
  have hpos : 0 < (2 : Nat) ^ (256 - c) := Nat.pos_pow_of_pos _ (by norm_num)
  rw [Nat.div_lt_iff_lt_mul hpos, ← Nat.pow_add]
  have hex : c + (256 - c) = 256 := by omega
  rw [hex]
  exact sha256_toNat_lt bs

namespace BIP39

theorem checks_eq (idxs : List Nat) (hb : ∀ i ∈ idxs, i < 2048)
    (hL : idxs.length = 12 ∨ idxs.length = 15 ∨ idxs.length = 18 ∨ idxs.length = 21
      ∨ idxs.length = 24) :
    (((idxs.map (fun idx => Py.zfill 11 (Py.pyBin idx))).flatten.drop
        ((idxs.map (fun idx => Py.zfill 11 (Py.pyBin idx))).flatten.length
          - idxs.length / 3))
      == (Py.zfill 256 (Py.pyBin (Py.bytesToNat (sha256 (Py.natToBytes
            (((idxs.map (fun idx => Py.zfill 11 (Py.pyBin idx))).flatten.take
              ((idxs.map (fun idx => Py.zfill 11 (Py.pyBin idx))).flatten.length
                - idxs.length / 3)).length / 8)
            (Py.bitsToNat ((idxs.map (fun idx => Py.zfill 11 (Py.pyBin idx))).flatten.take
              ((idxs.map (fun idx => Py.zfill 11 (Py.pyBin idx))).flatten.length
                - idxs.length / 3)))))))).take (idxs.length / 3)) = true
    ↔ Spec.checksumOk idxs := by
  have hmap : idxs.map (fun idx => Py.zfill 11 (Py.pyBin idx))
      = idxs.map (fun idx => Py.natToBits 11 idx) := by
    apply List.map_congr_left
    intro i hi
    have h2 : (2 : Nat) ^ 11 = 2048 := by norm_num
    exact Py.zfill_pyBin 11 i (by rw [h2]; exact hb i hi) (by norm_num)
  rw [hmap, flatten_natToBits idxs hb]
  set L := idxs.length with hLdef
  set N := Spec.indicesNum idxs with hNdef
  have hNlt : N < 2 ^ (11 * L) := by
    have := Spec.indicesNum_lt idxs hb
    rwa [Spec.pow2048_eq] at this
  rw [Py.natToBits_length]
  have hsum : (11 * L - L / 3) + L / 3 = 11 * L := by omega
  have htake : (Py.natToBits (11 * L) N).take (11 * L - L / 3)
      = Py.natToBits (11 * L - L / 3) (N / 2 ^ (L / 3)) := by
    have ht := Py.natToBits_take (11 * L - L / 3) (L / 3) N
    rwa [hsum] at ht
  have hdrop : (Py.natToBits (11 * L) N).drop (11 * L - L / 3)
      = Py.natToBits (L / 3) N := by
    have hd := Py.natToBits_drop (11 * L - L / 3) (L / 3) N
    rwa [hsum] at hd
  rw [htake, hdrop, Py.natToBits_length, Py.bitsToNat_natToBits]
  have hdivlt : N / 2 ^ (L / 3) < 2 ^ (11 * L - L / 3) := by
    have hpos : 0 < (2 : Nat) ^ (L / 3) := Nat.pos_pow_of_pos _ (by norm_num)
    rw [Nat.div_lt_iff_lt_mul hpos, ← Nat.pow_add, hsum]
    exact hNlt
  rw [Nat.mod_eq_of_lt hdivlt]
  have hbytes : (11 * L - L / 3) / 8 = 4 * L / 3 := by omega
  rw [hbytes]
  have hc : L / 3 ≤ 256 := by omega
  rw [sha_checksum_bits _ _ hc]
  rw [show ((Py.natToBits (L / 3) N == Py.natToBits (L / 3)
      (Py.bytesToNat (sha256 (Py.natToBytes (4 * L / 3) (N / 2 ^ (L / 3)))) / 2 ^ (256 - L / 3)))
      = true)
    ↔ (Py.natToBits (L / 3) N = Py.natToBits (L / 3)
      (Py.bytesToNat (sha256 (Py.natToBytes (4 * L / 3) (N / 2 ^ (L / 3)))) / 2 ^ (256 - L / 3)))
    from beq_iff_eq]
  rw [natToBits_inj_iff]
  unfold Spec.checksumOk
  rw [← hLdef, ← hNdef]
  rw [Nat.mod_eq_of_lt (checksum_div_lt _ _ hc)]

end BIP39

namespace BIP39

theorem validate_iff (wl : List (List Char)) (h2048 : wl.length = 2048) (m : List Char) :
    validate_mnemonic wl m = true ↔
      ∃ idxs, lookupAll wl (Py.pySplit (Py.pyStrip m)) = some idxs ∧
        idxs.length ∈ [12, 15, 18, 21, 24] ∧ Spec.checksumOk idxs := by
  simp only [validate_mnemonic]
  set words := Py.pySplit (Py.pyStrip m) with hw
  by_cases hlen : words.length ∈ [12, 15, 18, 21, 24]
  · rw [if_pos hlen]
    cases hlk : lookupAll wl words with
    | none => simp [hlk]
    | some idxs =>
      obtain ⟨hidlen, hbound⟩ := lookupAll_bounds wl words idxs hlk
      have hb2048 : ∀ i ∈ idxs, i < 2048 := fun i hi => h2048 ▸ hbound i hi
      have hweq : words.length = idxs.length := hidlen.symm
      simp only [hweq]
      have hmem : idxs.length ∈ [12, 15, 18, 21, 24] := by
        rw [hidlen]
        exact hlen
      have hdisj : idxs.length = 12 ∨ idxs.length = 15 ∨ idxs.length = 18
          ∨ idxs.length = 21 ∨ idxs.length = 24 := by
        simpa using hmem
      rw [checks_eq idxs hb2048 hdisj]
      simp [hmem]
      exact fun _ => hdisj
  · rw [if_neg hlen]
    constructor
    · intro h
      exact absurd h (by simp)
    · rintro ⟨idxs, hlk, hmem, -⟩
      obtain ⟨hidlen, -⟩ := lookupAll_bounds wl words idxs hlk
      rw [hidlen] at hmem
      exact absurd hmem hlen

end BIP39

theorem div_mod_mod_pow (X j m M : Nat) (h : j + m ≤ M) :
    (X % 2 ^ M) / 2 ^ j % 2 ^ m = X / 2 ^ j % 2 ^ m := by
  have hq := Nat.div_add_mod X (2 ^ M)
  set q := X / 2 ^ M with hqdef
  set r := X % 2 ^ M with hrdef
  have hpow : (2 : Nat) ^ M = 2 ^ j * 2 ^ (M - j) := by
    rw [← Nat.pow_add]
    congr 1
    omega
  have hXd : X / 2 ^ j = 2 ^ (M - j) * q + r / 2 ^ j := by
    rw [← hq, hpow, Nat.mul_assoc, Nat.mul_add_div (Nat.pos_pow_of_pos j (by norm_num))]
  rw [hXd]
  have hsplit : (2 : Nat) ^ (M - j) = 2 ^ m * 2 ^ (M - j - m) := by
    rw [← Nat.pow_add]
    congr 1
    omega
  rw [hsplit, Nat.mul_assoc, Nat.mul_add_mod]

theorem indicesNum_groups (k X : Nat) (hX : X < 2 ^ (11 * k)) :
    Spec.indicesNum ((List.range k).map (fun i => X / 2 ^ (11 * (k - 1 - i)) % 2048)) = X := by
  induction k generalizing X with
  | zero =>
    have h1 : X < 1 := by simpa using hX
    have h0 : X = 0 := by omega
    simp [Spec.indicesNum, h0]
  | succ k ih =>
    rw [List.range_succ_eq_map, List.map_cons, List.map_map]
    have hhead : 11 * (k + 1 - 1 - 0) = 11 * k := by omega
    have h2 : (2048 : Nat) = 2 ^ 11 := by norm_num
    have hdivlt : X / 2 ^ (11 * k) < 2048 := by
      rw [h2]
      have hpos : 0 < (2 : Nat) ^ (11 * k) := Nat.pos_pow_of_pos _ (by norm_num)
      rw [Nat.div_lt_iff_lt_mul hpos, ← Nat.pow_add]
      have : 11 + 11 * k = 11 * (k + 1) := by ring
      rwa [this]
    have htail : List.map ((fun i => X / 2 ^ (11 * (k + 1 - 1 - i)) % 2048) ∘ Nat.succ)
        (List.range k)
        = List.map (fun i => (X % 2 ^ (11 * k)) / 2 ^ (11 * (k - 1 - i)) % 2048)
          (List.range k) := by
      apply List.map_congr_left
      intro i hi
      have hik : i < k := List.mem_range.mp hi
      simp only [Function.comp]
      have he1 : k + 1 - 1 - (i + 1) = k - 1 - i := by omega
      rw [he1, h2]
      rw [div_mod_mod_pow X (11 * (k - 1 - i)) 11 (11 * k) (by omega)]
    rw [hhead, Nat.mod_eq_of_lt hdivlt, htail]
    rw [Spec.indicesNum_cons]
    rw [ih (X % 2 ^ (11 * k)) (Nat.mod_lt X (Nat.pos_pow_of_pos _ (by norm_num)))]
    rw [List.length_map, List.length_range, Spec.pow2048_eq]
    rw [Nat.mul_comm (X / 2 ^ (11 * k)) (2 ^ (11 * k))]
    exact Nat.div_add_mod X (2 ^ (11 * k))

theorem wordIndex_lt (e : List Nat) (i : Nat) : Spec.wordIndex e i < 2048 :=
  Nat.mod_lt _ (by norm_num)

theorem wordAt_mem (wl : List (List Char)) (idx : Nat) (h : idx < wl.length) :
    BIP39.wordAt wl idx ∈ wl := by
  unfold BIP39.wordAt
  rw [List.getD_eq_getElem wl [] h]
  exact List.getElem_mem h

theorem mnemonicWords_eq_map (wl : List (List Char)) (e : List Nat) :
    Spec.mnemonicWords wl e
      = ((List.range (Spec.wordCount e)).map (Spec.wordIndex e)).map (BIP39.wordAt wl) := by
  simp [Spec.mnemonicWords, List.map_map, Function.comp]

theorem bigNum_lt (e : List Nat) (hb : ∀ b ∈ e, b < 256) (hc : e.length / 4 ≤ 256) :
    Spec.bigNum e < 2 ^ (e.length * 8 + e.length / 4) := by
  have hE : Py.bytesToNat e < 2 ^ (e.length * 8) := bytesToNat_lt_pow2 e hb
  have hcs : Py.bytesToNat (sha256 e) / 2 ^ (256 - e.length / 4) < 2 ^ (e.length / 4) :=
    checksum_div_lt e (e.length / 4) hc
  unfold Spec.bigNum
  have h1 : Py.bytesToNat e * 2 ^ (e.length / 4)
        + Py.bytesToNat (sha256 e) / 2 ^ (256 - e.length / 4)
      < (Py.bytesToNat e + 1) * 2 ^ (e.length / 4) := by
    have : (Py.bytesToNat e + 1) * 2 ^ (e.length / 4)
        = Py.bytesToNat e * 2 ^ (e.length / 4) + 2 ^ (e.length / 4) := by ring
    omega
  have h2 : (Py.bytesToNat e + 1) * 2 ^ (e.length / 4)
      ≤ 2 ^ (e.length * 8) * 2 ^ (e.length / 4) :=
    Nat.mul_le_mul_right _ (by omega)
  have h3 : (2 : Nat) ^ (e.length * 8) * 2 ^ (e.length / 4)
      = 2 ^ (e.length * 8 + e.length / 4) := by
    rw [← Nat.pow_add]
  omega

theorem bigNum_div (e : List Nat) (hc : e.length / 4 ≤ 256) :
    Spec.bigNum e / 2 ^ (e.length / 4) = Py.bytesToNat e := by
  unfold Spec.bigNum
  have hcs : Py.bytesToNat (sha256 e) / 2 ^ (256 - e.length / 4) < 2 ^ (e.length / 4) :=
    checksum_div_lt e (e.length / 4) hc
  have hpos : 0 < (2 : Nat) ^ (e.length / 4) := Nat.pos_pow_of_pos _ (by norm_num)
  rw [Nat.mul_comm (Py.bytesToNat e), Nat.mul_add_div hpos, Nat.div_eq_of_lt hcs]
  omega

theorem bigNum_mod (e : List Nat) (hc : e.length / 4 ≤ 256) :
    Spec.bigNum e % 2 ^ (e.length / 4)
      = Py.bytesToNat (sha256 e) / 2 ^ (256 - e.length / 4) := by
  unfold Spec.bigNum
  have hcs : Py.bytesToNat (sha256 e) / 2 ^ (256 - e.length / 4) < 2 ^ (e.length / 4) :=
    checksum_div_lt e (e.length / 4) hc
  rw [Nat.mul_comm (Py.bytesToNat e), Nat.mul_add_mod, Nat.mod_eq_of_lt hcs]

theorem checksumOk_spec (e : List Nat) (he : e.length ∈ [16, 20, 24, 28, 32])
    (hb : ∀ b ∈ e, b < 256) :
    Spec.checksumOk ((List.range (Spec.wordCount e)).map (Spec.wordIndex e)) := by
  have hn : e.length = 16 ∨ e.length = 20 ∨ e.length = 24 ∨ e.length = 28
      ∨ e.length = 32 := by simpa using he
  have hc : e.length / 4 ≤ 256 := by omega
  have hwc : e.length * 8 + e.length / 4 = 11 * Spec.wordCount e := by
    unfold Spec.wordCount
    omega
  have hXlt : Spec.bigNum e < 2 ^ (11 * Spec.wordCount e) := by
    rw [← hwc]
    exact bigNum_lt e hb hc
  have hnum : Spec.indicesNum ((List.range (Spec.wordCount e)).map (Spec.wordIndex e))
      = Spec.bigNum e := by
    unfold Spec.wordIndex
    exact indicesNum_groups (Spec.wordCount e) (Spec.bigNum e) hXlt
  unfold Spec.checksumOk
  rw [hnum, List.length_map, List.length_range]
  have hL3 : Spec.wordCount e / 3 = e.length / 4 := by
    unfold Spec.wordCount
    omega
  have hL43 : 4 * Spec.wordCount e / 3 = e.length := by
    unfold Spec.wordCount
    omega
  rw [hL3, hL43, bigNum_div e hc, bigNum_mod e hc]
  rw [Py.natToBytes_bytesToNat e hb]

theorem validate_generate (wl : List (List Char)) (h2048 : wl.length = 2048)
    (hnd : wl.Nodup) (hgood : ∀ w ∈ wl, Py.goodWord w) (e : List Nat)
    (he : e.length ∈ [16, 20, 24, 28, 32]) (hb : ∀ b ∈ e, b < 256) :
    BIP39.validate_mnemonic wl (Py.joinSpace (Spec.mnemonicWords wl e)) = true := by
  rw [BIP39.validate_iff wl h2048]
  have hgoodwords : ∀ w ∈ Spec.mnemonicWords wl e, Py.goodWord w := by
    intro w hw
    obtain ⟨i, _, rfl⟩ := List.mem_map.mp hw
    apply hgood
    apply wordAt_mem
    rw [h2048]
    exact wordIndex_lt e i
  refine ⟨(List.range (Spec.wordCount e)).map (Spec.wordIndex e), ?_, ?_, ?_⟩
  · rw [Py.tokenize_joinSpace _ hgoodwords, mnemonicWords_eq_map]
    apply BIP39.lookupAll_map wl hnd
    intro i hi
    obtain ⟨j, _, rfl⟩ := List.mem_map.mp hi
    rw [h2048]
    exact wordIndex_lt e j
  · have hn : e.length = 16 ∨ e.length = 20 ∨ e.length = 24 ∨ e.length = 28
        ∨ e.length = 32 := by simpa using he
    simp only [List.length_map, List.length_range, List.mem_cons, List.not_mem_nil, or_false]
    unfold Spec.wordCount
    omega
  · exact checksumOk_spec e he hb

namespace Fixture

theorem alphabet_length : alphabet.length = 46 := rfl

theorem alphabet_nodup : alphabet.Nodup := by decide

theorem alphabet_no_space : ∀ c ∈ alphabet, Py.isPySpace c = false := by decide

theorem wlWord_inj (i j : Nat) (hi : i < 2048) (hj : j < 2048)
    (h : wlWord i = wlWord j) : i = j := by
  unfold wlWord at h
  split_ifs at h with h1 h2 h3 h4 h5 h6 h7 h8
  all_goals try omega
  all_goals try (simp [abandonWord, aboutWord] at h)
  obtain ⟨ha, hb⟩ := h
  have hdi : i / 46 < alphabet.length := by rw [alphabet_length]; omega
  have hdj : j / 46 < alphabet.length := by rw [alphabet_length]; omega
  have hmi : i % 46 < alphabet.length := by rw [alphabet_length]; omega
  have hmj : j % 46 < alphabet.length := by rw [alphabet_length]; omega
  rw [List.getElem?_eq_getElem hdi, List.getElem?_eq_getElem hdj] at ha
  rw [List.getElem?_eq_getElem hmi, List.getElem?_eq_getElem hmj] at hb
  simp only [Option.getD_some] at ha hb
  have e1 : i / 46 = j / 46 := (List.Nodup.getElem_inj_iff alphabet_nodup).mp ha
  have e2 : i % 46 = j % 46 := (List.Nodup.getElem_inj_iff alphabet_nodup).mp hb
  omega

theorem wlTest_length : wlTest.length = 2048 := by
  simp [wlTest]

theorem wlTest_nodup : wlTest.Nodup := by
  unfold wlTest
  apply List.Nodup.map_on
  · intro i hi j hj h
    exact wlWord_inj i j (List.mem_range.mp hi) (List.mem_range.mp hj) h
  · exact List.nodup_range 2048

theorem wlTest_good : ∀ w ∈ wlTest, Py.goodWord w := by
  intro w hw
  obtain ⟨i, hi, rfl⟩ := List.mem_map.mp hw
  have hi2048 : i < 2048 := List.mem_range.mp hi
  unfold wlWord
  split_ifs with h1 h2
  · exact ⟨by decide, by decide⟩
  · exact ⟨by decide, by decide⟩
  · constructor
    · simp
    · intro c hc
      have hdi : i / 46 < alphabet.length := by rw [alphabet_length]; omega
      have hmi : i % 46 < alphabet.length := by rw [alphabet_length]; omega
      simp only [List.mem_cons, List.not_mem_nil, or_false] at hc
      rcases hc with rfl | rfl
      · rw [List.getD_eq_getElem alphabet 'A' hdi]
        exact alphabet_no_space _ (List.getElem_mem hdi)
      · rw [List.getD_eq_getElem alphabet 'A' hmi]
        exact alphabet_no_space _ (List.getElem_mem hmi)

end Fixture

theorem sha512_length (msg : List Nat) : (sha512 msg).length = 64 := by
  simp [sha512, SHA2.digest512, SHA2.word64Bytes]

theorem hmacSha512_length (key msg : List Nat) : (hmacSha512 key msg).length = 64 := by
  unfold hmacSha512
  exact sha512_length _

theorem pbkdf2Loop_length (n : Nat) (pw u acc : List Nat) (ha : acc.length = 64) :
    (pbkdf2Loop n pw u acc).length = 64 := by
  induction n generalizing u acc with
  | zero => exact ha
  | succ n ih =>
    rw [pbkdf2Loop]
    apply ih
    rw [List.length_zipWith, ha, hmacSha512_length]
    rfl

theorem pbkdf2HmacSha512_length (pw salt : List Nat) (iters : Nat) :
    (pbkdf2HmacSha512 pw salt iters).length = 64 := by
  unfold pbkdf2HmacSha512
  exact pbkdf2Loop_length _ _ _ _ (hmacSha512_length _ _)

theorem mnemonic_to_seed_length (m p : List Char) :
    (BIP39.mnemonic_to_seed m p).length = 64 :=
  pbkdf2HmacSha512_length _ _ _

namespace Ed25519

theorem natToBytesLE_length (k x : Nat) : (natToBytesLE k x).length = k := by
  induction k generalizing x with
  | zero => rfl
  | succ k ih => simp [natToBytesLE, ih]

theorem ed25519Pub_length (seed : List Nat) : (ed25519Pub seed).length = 32 := by
  unfold ed25519Pub edEncodePoint
  exact natToBytesLE_length 32 _

end Ed25519

namespace ValidatorKey

theorem generate_from_seed_private_length (seed : List Nat) :
    (generate_from_seed seed).private_key.length = 64 := by
  unfold generate_from_seed generate_from_seed_nacl
  rw [List.length_append, sha256_length, Ed25519.ed25519Pub_length]

theorem generate_from_seed_public_length (seed : List Nat) :
    (generate_from_seed seed).public_key.length = 32 := by
  unfold generate_from_seed generate_from_seed_nacl
  exact Ed25519.ed25519Pub_length _

theorem bytesHex_length (bs : List Nat) : (bytesHex bs).length = 2 * bs.length := by
  induction bs with
  | nil => rfl
  | cons b bs ih =>
    simp only [bytesHex, List.map_cons, List.flatten_cons] at ih ⊢
    simp [ih]
    omega

theorem generate_address_length (pk : List Nat) : (generate_address pk).length = 40 := by
  unfold generate_address pyUpper
  rw [List.length_map, bytesHex_length, List.length_take, sha256_length]
  rfl

theorem hexDigit_upper_ok (d : Nat) (hd : d < 16) :
    Spec.isUpperHexDigit (pyUpperChar (hexDigitLower d)) := by
  interval_cases d <;> simp [pyUpperChar, hexDigitLower, Spec.isUpperHexDigit]

theorem bytesHex_mem (bs : List Nat) (c : Char) (hc : c ∈ bytesHex bs) :
    ∃ b ∈ bs, c = hexDigitLower (b / 16) ∨ c = hexDigitLower (b % 16) := by
  unfold bytesHex at hc
  rw [List.mem_flatten] at hc
  obtain ⟨l, hl, hcl⟩ := hc
  rw [List.mem_map] at hl
  obtain ⟨b, hb, rfl⟩ := hl
  simp only [List.mem_cons, List.not_mem_nil, or_false] at hcl
  exact ⟨b, hb, hcl⟩

theorem generate_address_chars (pk : List Nat) :
    ∀ c ∈ generate_address pk, Spec.isUpperHexDigit c := by
  intro c hc
  unfold generate_address pyUpper at hc
  rw [List.mem_map] at hc
  obtain ⟨c0, hc0, rfl⟩ := hc
  obtain ⟨b, hb, hcase⟩ := bytesHex_mem _ c0 hc0
  have hb256 : b < 256 := sha256_lt pk b (List.mem_of_mem_take hb)
  rcases hcase with rfl | rfl
  · exact hexDigit_upper_ok (b / 16) (by omega)
  · exact hexDigit_upper_ok (b % 16) (by omega)

end ValidatorKey

theorem mnemonicWords_good (wl : List (List Char)) (h2048 : wl.length = 2048)
    (hgood : ∀ w ∈ wl, Py.goodWord w) (e : List Nat) :
    ∀ w ∈ Spec.mnemonicWords wl e, Py.goodWord w := by
  intro w hw
  obtain ⟨i, _, rfl⟩ := List.mem_map.mp hw
  apply hgood
  apply wordAt_mem
  rw [h2048]
  exact wordIndex_lt e i

/-- Claim C1: for a wordlist satisfying the spec's invariants and every
supported strength, `generate_mnemonic` (with any entropy of `strength/8`
bytes in place of the random draw) returns a mnemonic of exactly
`strength/32*3` whitespace tokens, and `validate_mnemonic` accepts it. -/
theorem claim_C1 (wl : List (List Char)) (h2048 : wl.length = 2048) (hnd : wl.Nodup)
    (hgood : ∀ w ∈ wl, Py.goodWord w) (strength : Nat)
    (hs : strength ∈ [128, 160, 192, 224, 256]) (e : List Nat)
    (he : e.length = strength / 8) (hb : ∀ b ∈ e, b < 256) :
    ∃ m, BIP39.generate_mnemonic wl strength e = some m
      ∧ (Py.pySplit (Py.pyStrip m)).length = strength / 32 * 3
      ∧ BIP39.validate_mnemonic wl m = true := by
  have hs5 : strength = 128 ∨ strength = 160 ∨ strength = 192 ∨ strength = 224
      ∨ strength = 256 := by simpa using hs
  have hlen : e.length ∈ [16, 20, 24, 28, 32] := by
    simp only [List.mem_cons, List.not_mem_nil, or_false]
    omega
  refine ⟨Py.joinSpace (Spec.mnemonicWords wl e), ?_, ?_, ?_⟩
  · rw [BIP39.generate_mnemonic, if_pos hs]
    exact entropy_to_mnemonic_eq wl e hlen hb
  · rw [Py.tokenize_joinSpace _ (mnemonicWords_good wl h2048 hgood e)]
    unfold Spec.mnemonicWords
    rw [List.length_map, List.length_range]
    unfold Spec.wordCount
    omega
  · exact validate_generate wl h2048 hnd hgood e hlen hb

/-- Witness for C1 at the test wordlist, strength 128 and the zero
entropy. -/
theorem claim_C1_witness :
    ∃ m, BIP39.generate_mnemonic Fixture.wlTest 128 (List.replicate 16 0) = some m
      ∧ (Py.pySplit (Py.pyStrip m)).length = 128 / 32 * 3
      ∧ BIP39.validate_mnemonic Fixture.wlTest m = true :=
  claim_C1 Fixture.wlTest Fixture.wlTest_length Fixture.wlTest_nodup Fixture.wlTest_good
    128 (by decide) (List.replicate 16 0) (by decide) (by decide)

/-- Claim C2: the entropy-to-mnemonic encoding equals the spec-side
reading: big-endian zero-padded entropy bits followed by the first
`entropyBits/32` bits of the SHA-256 of the entropy, cut into consecutive
11-bit groups, each mapped through the wordlist in order. -/
theorem claim_C2 (wl : List (List Char)) (e : List Nat)
    (he : e.length ∈ [16, 20, 24, 28, 32]) (hb : ∀ b ∈ e, b < 256) :
    BIP39.entropy_to_mnemonic wl e
      = some (Py.joinSpace (Spec.mnemonicWords wl e)) :=
  entropy_to_mnemonic_eq wl e he hb

/-- Witness for C2 at the test wordlist and the zero entropy. -/
theorem claim_C2_witness :
    BIP39.entropy_to_mnemonic Fixture.wlTest (List.replicate 16 0)
      = some (Py.joinSpace (Spec.mnemonicWords Fixture.wlTest (List.replicate 16 0))) :=
  claim_C2 Fixture.wlTest (List.replicate 16 0) (by decide) (by decide)

/-- Claim C3: `validate_mnemonic` returns `false` (not an error) on a bad
token count or an unknown word, and otherwise returns `true` exactly when
the trailing `wordCount/3` bits of the reconstructed bit string equal the
leading bits of the SHA-256 of the recovered entropy; a 13-word mnemonic
is rejected because 13 is not an allowed count. -/
theorem claim_C3 (wl : List (List Char)) (h2048 : wl.length = 2048) (m : List Char) :
    ((Py.pySplit (Py.pyStrip m)).length ∉ [12, 15, 18, 21, 24]
      → BIP39.validate_mnemonic wl m = false)
    ∧ (BIP39.lookupAll wl (Py.pySplit (Py.pyStrip m)) = none
      → BIP39.validate_mnemonic wl m = false)
    ∧ (BIP39.validate_mnemonic wl m = true ↔
        ∃ idxs, BIP39.lookupAll wl (Py.pySplit (Py.pyStrip m)) = some idxs
          ∧ idxs.length ∈ [12, 15, 18, 21, 24] ∧ Spec.checksumOk idxs) := by
  have hiff := BIP39.validate_iff wl h2048 m
  refine ⟨?_, ?_, hiff⟩
  · intro hcount
    rcases hv : BIP39.validate_mnemonic wl m with _ | _
    · rfl
    · exfalso
      obtain ⟨idxs, hlk, hmem, -⟩ := hiff.mp hv
      obtain ⟨hlen, -⟩ := BIP39.lookupAll_bounds wl _ idxs hlk
      rw [hlen] at hmem
      exact hcount hmem
  · intro hnone
    rcases hv : BIP39.validate_mnemonic wl m with _ | _
    · rfl
    · exfalso
      obtain ⟨idxs, hlk, -, -⟩ := hiff.mp hv
      rw [hnone] at hlk
      cases hlk

/-- Witness for C3 at the test wordlist and a 13-token string. -/
theorem claim_C3_witness :
    ((Py.pySplit (Py.pyStrip Fixture.vectorMnemonicSpace)).length ∉ [12, 15, 18, 21, 24]
      → BIP39.validate_mnemonic Fixture.wlTest Fixture.vectorMnemonicSpace = false)
    ∧ (BIP39.lookupAll Fixture.wlTest (Py.pySplit (Py.pyStrip Fixture.vectorMnemonicSpace)) = none
      → BIP39.validate_mnemonic Fixture.wlTest Fixture.vectorMnemonicSpace = false)
    ∧ (BIP39.validate_mnemonic Fixture.wlTest Fixture.vectorMnemonicSpace = true ↔
        ∃ idxs, BIP39.lookupAll Fixture.wlTest
            (Py.pySplit (Py.pyStrip Fixture.vectorMnemonicSpace)) = some idxs
          ∧ idxs.length ∈ [12, 15, 18, 21, 24] ∧ Spec.checksumOk idxs) :=
  claim_C3 Fixture.wlTest Fixture.wlTest_length Fixture.vectorMnemonicSpace

theorem fNat_eq {α : Type} (n : Nat) (k : Nat → α) : fNat n k = k n := by
  cases n <;> rfl

theorem word64Bytes_length (w : Nat) : (SHA2.word64Bytes w).length = 8 := rfl

theorem bytesToNat_word64Bytes (x : Nat) (hx : x < 18446744073709551616) :
    Py.bytesToNat (SHA2.word64Bytes x) = x := by
  simp only [Py.bytesToNat, SHA2.word64Bytes, List.foldl]
  omega

theorem toWords64_word64Bytes (n x : Nat) (hx : x < 18446744073709551616) (rest : List Nat) :
    SHA2.toWords64 (n + 1) (SHA2.word64Bytes x ++ rest) = x :: SHA2.toWords64 n rest := by
  simp only [SHA2.toWords64]
  rw [List.take_left' (word64Bytes_length x), List.drop_left' (word64Bytes_length x),
    bytesToNat_word64Bytes x hx]

theorem xorB (a b L s : Nat) (hL : L = 2 ^ s) :
    (a / L % 256) ^^^ (b / L % 256) = (a ^^^ b) / L % 256 := by
  subst hL
  have h256 : (256 : Nat) = 2 ^ 8 := by norm_num
  rw [h256, ← Nat.shiftRight_eq_div_pow, ← Nat.shiftRight_eq_div_pow, ← Nat.shiftRight_eq_div_pow]
  apply Nat.eq_of_testBit_eq
  intro i
  simp only [Nat.testBit_mod_two_pow, Nat.testBit_xor, Nat.testBit_shiftRight]
  by_cases h : i < 8 <;> simp [h]

theorem xorB0 (a b : Nat) : (a % 256) ^^^ (b % 256) = (a ^^^ b) % 256 := by
  have h := xorB a b 1 0 (by norm_num)
  simpa using h

theorem zipWith_xor_word64 (a b : Nat) :
    List.zipWith (fun x y => x ^^^ y) (SHA2.word64Bytes a) (SHA2.word64Bytes b)
      = SHA2.word64Bytes (a ^^^ b) := by
  simp only [SHA2.word64Bytes, List.zipWith]
  rw [xorB a b 72057594037927936 56 (by norm_num),
    xorB a b 281474976710656 48 (by norm_num),
    xorB a b 1099511627776 40 (by norm_num),
    xorB a b 4294967296 32 (by norm_num),
    xorB a b 16777216 24 (by norm_num),
    xorB a b 65536 16 (by norm_num),
    xorB a b 256 8 (by norm_num),
    xorB0 a b]

theorem zipWith_xor_digest (x y : SHA2.St) :
    List.zipWith (fun a b => a ^^^ b) (SHA2.digest512 x) (SHA2.digest512 y)
      = SHA2.digest512 (xorSt x y) := by
  simp only [SHA2.digest512, xorSt]
  rw [List.zipWith_append _ _ _ _ _ (by simp [SHA2.word64Bytes]),
    List.zipWith_append _ _ _ _ _ (by simp [SHA2.word64Bytes]),
    List.zipWith_append _ _ _ _ _ (by simp [SHA2.word64Bytes]),
    List.zipWith_append _ _ _ _ _ (by simp [SHA2.word64Bytes]),
    List.zipWith_append _ _ _ _ _ (by simp [SHA2.word64Bytes]),
    List.zipWith_append _ _ _ _ _ (by simp [SHA2.word64Bytes]),
    List.zipWith_append _ _ _ _ _ (by simp [SHA2.word64Bytes])]
  simp only [zipWith_xor_word64]
  rfl

theorem StB_compressW (st : SHA2.St)
    (w0 w1 w2 w3 w4 w5 w6 w7 w8 w9 w10 w11 w12 w13 w14 w15 : Nat) :
    StB (compressW st w0 w1 w2 w3 w4 w5 w6 w7 w8 w9 w10 w11 w12 w13 w14 w15) :=
  ⟨Nat.mod_lt _ (by norm_num), Nat.mod_lt _ (by norm_num), Nat.mod_lt _ (by norm_num),
   Nat.mod_lt _ (by norm_num), Nat.mod_lt _ (by norm_num), Nat.mod_lt _ (by norm_num),
   Nat.mod_lt _ (by norm_num), Nat.mod_lt _ (by norm_num)⟩

theorem StB_hmacStep (ist ost u : SHA2.St) : StB (hmacStep ist ost u) :=
  StB_compressW _ _ _ _ _ _ _ _ _ _ _ _ _ _ _ _ _

theorem StB_xorSt {x y : SHA2.St} (hx : StB x) (hy : StB y) : StB (xorSt x y) := by
  have hp : (18446744073709551616 : Nat) = 2 ^ 64 := by norm_num
  rw [StB, hp] at hx hy ⊢
  exact ⟨Nat.xor_lt_two_pow hx.1 hy.1,
    Nat.xor_lt_two_pow hx.2.1 hy.2.1,
    Nat.xor_lt_two_pow hx.2.2.1 hy.2.2.1,
    Nat.xor_lt_two_pow hx.2.2.2.1 hy.2.2.2.1,
    Nat.xor_lt_two_pow hx.2.2.2.2.1 hy.2.2.2.2.1,
    Nat.xor_lt_two_pow hx.2.2.2.2.2.1 hy.2.2.2.2.2.1,
    Nat.xor_lt_two_pow hx.2.2.2.2.2.2.1 hy.2.2.2.2.2.2.1,
    Nat.xor_lt_two_pow hx.2.2.2.2.2.2.2 hy.2.2.2.2.2.2.2⟩

theorem rounds512F_eq (ks : List Nat) :
    ∀ a b c d e f g h w0 w1 w2 w3 w4 w5 w6 w7 w8 w9 w10 w11 w12 w13 w14 w15 : Nat,
    rounds512F ks a b c d e f g h w0 w1 w2 w3 w4 w5 w6 w7 w8 w9 w10 w11 w12 w13 w14 w15
      = SHA2.rounds512 ks a b c d e f g h w0 w1 w2 w3 w4 w5 w6 w7 w8 w9 w10 w11 w12 w13 w14 w15 := by
  induction ks with
  | nil => intro a b c d e f g h w0 w1 w2 w3 w4 w5 w6 w7 w8 w9 w10 w11 w12 w13 w14 w15; rfl
  | cons k ks ih =>
    intro a b c d e f g h w0 w1 w2 w3 w4 w5 w6 w7 w8 w9 w10 w11 w12 w13 w14 w15
    show rounds512F ks
        (((h + SHA2.Sig1e e + ((e &&& f) ^^^ ((e ^^^ 18446744073709551615) &&& g)) + k + w0) % 18446744073709551616
          + (SHA2.Sig0a a + ((a &&& b) ^^^ (a &&& c) ^^^ (b &&& c))) % 18446744073709551616) % 18446744073709551616)
        a b c
        ((d + (h + SHA2.Sig1e e + ((e &&& f) ^^^ ((e ^^^ 18446744073709551615) &&& g)) + k + w0) % 18446744073709551616) % 18446744073709551616)
        e f g w1 w2 w3 w4 w5 w6 w7 w8 w9 w10 w11 w12 w13 w14 w15
        ((SHA2.sig1w w14 + w9 + SHA2.sig0w w1 + w0) % 18446744073709551616)
      = SHA2.rounds512 (k :: ks) a b c d e f g h w0 w1 w2 w3 w4 w5 w6 w7 w8 w9 w10 w11 w12 w13 w14 w15
    rw [ih]
    rfl

theorem compress512_words (st : SHA2.St) (block : List Nat)
    (w0 w1 w2 w3 w4 w5 w6 w7 w8 w9 w10 w11 w12 w13 w14 w15 : Nat)
    (hw : SHA2.toWords64 16 block = [w0, w1, w2, w3, w4, w5, w6, w7, w8, w9, w10, w11, w12, w13, w14, w15]) :
    SHA2.compress512 st block
      = compressW st w0 w1 w2 w3 w4 w5 w6 w7 w8 w9 w10 w11 w12 w13 w14 w15 := by
  unfold SHA2.compress512 compressW
  rw [hw]
  simp only [rounds512F_eq]
  rfl

theorem pbkdf2WLoop_succ (ist ost : SHA2.St) (n : Nat) (u acc : SHA2.St) :
    pbkdf2WLoop ist ost (n + 1) u acc
      = pbkdf2WLoop ist ost n (hmacStep ist ost u) (xorSt acc (hmacStep ist ost u)) := by
  have h : pbkdf2WLoop ist ost (n + 1) u acc
      = fNat (forceKey (hmacStep ist ost u) (xorSt acc (hmacStep ist ost u)))
          (fun _ => pbkdf2WLoop ist ost n (hmacStep ist ost u) (xorSt acc (hmacStep ist ost u))) := rfl
  rw [h, fNat_eq]

theorem pbkdf2WLoop_add (ist ost : SHA2.St) (m n : Nat) :
    ∀ u acc : SHA2.St, pbkdf2WLoop ist ost (m + n) u acc
      = pbkdf2WLoop ist ost n (pbkdf2WLoop ist ost m u acc).1 (pbkdf2WLoop ist ost m u acc).2 := by
  induction m with
  | zero => intro u acc; rw [Nat.zero_add]; rfl
  | succ m ih =>
    intro u acc
    have h : m + 1 + n = (m + n) + 1 := by omega
    rw [h, pbkdf2WLoop_succ, ih, pbkdf2WLoop_succ]

theorem sha512_prefix128 (pre : List Nat) (hpre : pre.length = 128) (us : SHA2.St) (hb : StB us) :
    sha512 (pre ++ SHA2.digest512 us)
      = SHA2.digest512 (compressW (SHA2.compress512 SHA2.initH512 pre)
          (SHA2.St.a us) (SHA2.St.b us) (SHA2.St.c us) (SHA2.St.d us)
          (SHA2.St.e us) (SHA2.St.f us) (SHA2.St.g us) (SHA2.St.h us)
          9223372036854775808 0 0 0 0 0 0 1536) := by
  have hd64 : (SHA2.digest512 us).length = 64 := by
    simp [SHA2.digest512, SHA2.word64Bytes]
  have hm : (pre ++ SHA2.digest512 us).length = 192 := by
    simp [hpre, hd64]
  have hpad : SHA2.sha512pad (pre ++ SHA2.digest512 us)
      = pre ++ (SHA2.digest512 us ++ (128 :: (List.replicate 47 0 ++ Py.natToBytes 16 1536))) := by
    simp only [SHA2.sha512pad, hm]
    norm_num
  have hntb : (Py.natToBytes 16 1536).length = 16 := by decide
  have hrest : (SHA2.digest512 us ++ (128 :: (List.replicate 47 0 ++ Py.natToBytes 16 1536))).length = 128 := by
    simp [hd64, hntb]
  have hplen : (SHA2.sha512pad (pre ++ SHA2.digest512 us)).length = 256 := by
    rw [hpad]
    simp [hpre, hd64, hntb]
  show SHA2.digest512 (SHA2.sha512blocks
      ((SHA2.sha512pad (pre ++ SHA2.digest512 us)).length / 128) SHA2.initH512
      (SHA2.sha512pad (pre ++ SHA2.digest512 us))) = _
  rw [hplen, hpad]
  norm_num
  have hblocks : ∀ (st : SHA2.St) (bs : List Nat), SHA2.sha512blocks 2 st bs
      = SHA2.compress512 (SHA2.compress512 st (bs.take 128)) ((bs.drop 128).take 128) :=
    fun st bs => rfl
  rw [hblocks, List.take_left' hpre, List.drop_left' hpre,
    List.take_of_length_le (le_of_eq hrest)]
  obtain ⟨h1, h2, h3, h4, h5, h6, h7, h8⟩ := hb
  have hw : SHA2.toWords64 16 (SHA2.digest512 us ++ (128 :: (List.replicate 47 0 ++ Py.natToBytes 16 1536)))
      = [SHA2.St.a us, SHA2.St.b us, SHA2.St.c us, SHA2.St.d us,
         SHA2.St.e us, SHA2.St.f us, SHA2.St.g us, SHA2.St.h us,
         9223372036854775808, 0, 0, 0, 0, 0, 0, 1536] := by
    simp only [SHA2.digest512, List.append_assoc]
    rw [toWords64_word64Bytes 15 _ h1, toWords64_word64Bytes 14 _ h2,
      toWords64_word64Bytes 13 _ h3, toWords64_word64Bytes 12 _ h4,
      toWords64_word64Bytes 11 _ h5, toWords64_word64Bytes 10 _ h6,
      toWords64_word64Bytes 9 _ h7, toWords64_word64Bytes 8 _ h8]
    rw [show SHA2.toWords64 8 (128 :: (List.replicate 47 0 ++ Py.natToBytes 16 1536))
      = [9223372036854775808, 0, 0, 0, 0, 0, 0, 1536] from by decide]
  rw [compress512_words _ _ _ _ _ _ _ _ _ _ _ _ _ _ _ _ _ _ hw]

theorem hmacSha512_digest (pw : List Nat) (hpw : pw.length <= 128) (us : SHA2.St) (hb : StB us) :
    hmacSha512 pw (SHA2.digest512 us)
      = SHA2.digest512 (hmacStep (istOf pw) (ostOf pw) us) := by
  have hk : (if 128 < pw.length then sha512 pw ++ List.replicate 96 0
      else pw ++ List.replicate (128 - pw.length) 0) = pw ++ List.replicate (128 - pw.length) 0 :=
    if_neg (by omega)
  have hklen : (pw ++ List.replicate (128 - pw.length) 0).length = 128 := by
    simp
    omega
  simp only [hmacSha512, hk]
  rw [sha512_prefix128 _ (by simp only [List.length_map]; exact hklen) us hb]
  rw [sha512_prefix128 _ (by simp only [List.length_map]; exact hklen) _
    (StB_compressW _ _ _ _ _ _ _ _ _ _ _ _ _ _ _ _ _)]
  rfl

theorem pbkdf2Loop_WLoop (pw : List Nat) (hpw : pw.length <= 128) :
    ∀ (n : Nat) (u acc : SHA2.St), StB u → StB acc →
      pbkdf2Loop n pw (SHA2.digest512 u) (SHA2.digest512 acc)
        = SHA2.digest512 (pbkdf2WLoop (istOf pw) (ostOf pw) n u acc).2 := by
  intro n
  induction n with
  | zero => intro u acc _ _; rfl
  | succ n ih =>
    intro u acc hu hacc
    rw [pbkdf2WLoop_succ]
    simp only [pbkdf2Loop]
    rw [hmacSha512_digest pw hpw u hu, zipWith_xor_digest]
    exact ih (hmacStep _ _ u) (xorSt acc (hmacStep _ _ u))
      (StB_hmacStep _ _ u) (StB_xorSt hacc (StB_hmacStep _ _ u))

theorem vectorpw_eq : Py.utf8Encode Fixture.vectorMnemonic = [97, 98, 97, 110, 100, 111, 110, 32, 97, 98, 97, 110, 100, 111, 110, 32, 97, 98, 97, 110, 100, 111, 110, 32, 97, 98, 97, 110, 100, 111, 110, 32, 97, 98, 97, 110, 100, 111, 110, 32, 97, 98, 97, 110, 100, 111, 110, 32, 97, 98, 97, 110, 100, 111, 110, 32, 97, 98, 97, 110, 100, 111, 110, 32, 97, 98, 97, 110, 100, 111, 110, 32, 97, 98, 97, 110, 100, 111, 110, 32, 97, 98, 97, 110, 100, 111, 110, 32, 97, 98, 111, 117, 116] := by decide

set_option maxRecDepth 100000 in
theorem vectorist_eq : istOf [97, 98, 97, 110, 100, 111, 110, 32, 97, 98, 97, 110, 100, 111, 110, 32, 97, 98, 97, 110, 100, 111, 110, 32, 97, 98, 97, 110, 100, 111, 110, 32, 97, 98, 97, 110, 100, 111, 110, 32, 97, 98, 97, 110, 100, 111, 110, 32, 97, 98, 97, 110, 100, 111, 110, 32, 97, 98, 97, 110, 100, 111, 110, 32, 97, 98, 97, 110, 100, 111, 110, 32, 97, 98, 97, 110, 100, 111, 110, 32, 97, 98, 97, 110, 100, 111, 110, 32, 97, 98, 111, 117, 116] = (SHA2.St.mk 14403035353725789725 6755626892500025226 5020808023737830030 11042602477037836521 17634000325241878995 1159986118866272170 9650759692877145910 763481238414808510) := by decide!

set_option maxRecDepth 100000 in
theorem vectorost_eq : ostOf [97, 98, 97, 110, 100, 111, 110, 32, 97, 98, 97, 110, 100, 111, 110, 32, 97, 98, 97, 110, 100, 111, 110, 32, 97, 98, 97, 110, 100, 111, 110, 32, 97, 98, 97, 110, 100, 111, 110, 32, 97, 98, 97, 110, 100, 111, 110, 32, 97, 98, 97, 110, 100, 111, 110, 32, 97, 98, 97, 110, 100, 111, 110, 32, 97, 98, 97, 110, 100, 111, 110, 32, 97, 98, 97, 110, 100, 111, 110, 32, 97, 98, 97, 110, 100, 111, 110, 32, 97, 98, 111, 117, 116] = (SHA2.St.mk 18283137981034777304 16203441953169177392 397008473029659825 16669063739359772147 10161908764572012100 3409527833683077911 17180757051110366343 18088452986902486923) := by decide!

set_option maxRecDepth 100000 in
theorem vectoru1_eq : hmacSha512 [97, 98, 97, 110, 100, 111, 110, 32, 97, 98, 97, 110, 100, 111, 110, 32, 97, 98, 97, 110, 100, 111, 110, 32, 97, 98, 97, 110, 100, 111, 110, 32, 97, 98, 97, 110, 100, 111, 110, 32, 97, 98, 97, 110, 100, 111, 110, 32, 97, 98, 97, 110, 100, 111, 110, 32, 97, 98, 97, 110, 100, 111, 110, 32, 97, 98, 97, 110, 100, 111, 110, 32, 97, 98, 97, 110, 100, 111, 110, 32, 97, 98, 97, 110, 100, 111, 110, 32, 97, 98, 111, 117, 116] ([109, 110, 101, 109, 111, 110, 105, 99] ++ [0, 0, 0, 1]) = [100, 216, 39, 154, 56, 148, 254, 216, 216, 132, 127, 92, 60, 154, 66, 103, 141, 200, 70, 37, 63, 205, 163, 49, 87, 223, 92, 20, 138, 185, 223, 74, 195, 201, 7, 157, 54, 78, 42, 111, 157, 36, 178, 76, 58, 232, 88, 205, 176, 207, 181, 70, 224, 25, 134, 206, 225, 9, 103, 242, 71, 58, 43, 55] := by decide!

theorem vectoru1_digest : SHA2.digest512 (SHA2.St.mk 7266601542090030808 15601735043248702055 10216492880488145713 6331880844402745162 14107815679517141615 11323371403591833805 12740601186866529998 16215606223598922551) = [100, 216, 39, 154, 56, 148, 254, 216, 216, 132, 127, 92, 60, 154, 66, 103, 141, 200, 70, 37, 63, 205, 163, 49, 87, 223, 92, 20, 138, 185, 223, 74, 195, 201, 7, 157, 54, 78, 42, 111, 157, 36, 178, 76, 58, 232, 88, 205, 176, 207, 181, 70, 224, 25, 134, 206, 225, 9, 103, 242, 71, 58, 43, 55] := by decide

set_option maxRecDepth 1000000 in
set_option maxHeartbeats 400000000 in
theorem vectorchunk1 : pbkdf2WLoop (SHA2.St.mk 14403035353725789725 6755626892500025226 5020808023737830030 11042602477037836521 17634000325241878995 1159986118866272170 9650759692877145910 763481238414808510) (SHA2.St.mk 18283137981034777304 16203441953169177392 397008473029659825 16669063739359772147 10161908764572012100 3409527833683077911 17180757051110366343 18088452986902486923) 512 (SHA2.St.mk 7266601542090030808 15601735043248702055 10216492880488145713 6331880844402745162 14107815679517141615 11323371403591833805 12740601186866529998 16215606223598922551) (SHA2.St.mk 7266601542090030808 15601735043248702055 10216492880488145713 6331880844402745162 14107815679517141615 11323371403591833805 12740601186866529998 16215606223598922551)
    = (SHA2.St.mk 13220829677841754422 3928391775102431375 9098648977557875626 8502031142869250782 12840743618519593921 4036114425259171854 15615171226488233825 8286967590029719349, SHA2.St.mk 5808108397939710175 8616277735175418715 14181091766812774599 13971304597625240887 17256984045674427115 16550503674981819897 3408295326769456065 18426007244817069150) := by decide!

set_option maxRecDepth 1000000 in
set_option maxHeartbeats 400000000 in
theorem vectorchunk2 : pbkdf2WLoop (SHA2.St.mk 14403035353725789725 6755626892500025226 5020808023737830030 11042602477037836521 17634000325241878995 1159986118866272170 9650759692877145910 763481238414808510) (SHA2.St.mk 18283137981034777304 16203441953169177392 397008473029659825 16669063739359772147 10161908764572012100 3409527833683077911 17180757051110366343 18088452986902486923) 512 (SHA2.St.mk 13220829677841754422 3928391775102431375 9098648977557875626 8502031142869250782 12840743618519593921 4036114425259171854 15615171226488233825 8286967590029719349) (SHA2.St.mk 5808108397939710175 8616277735175418715 14181091766812774599 13971304597625240887 17256984045674427115 16550503674981819897 3408295326769456065 18426007244817069150)
    = (SHA2.St.mk 14855468979535154716 9919023918543131083 165319809943312298 6903766394793802488 16460888390846559256 7892086396714511525 2129763562161269520 2709035583969924889, SHA2.St.mk 16953851124392678392 6857484826274983630 1094173750165149166 3489452721507565666 4946285170083771222 300224630024372978 17245052691586069939 10723767232123866049) := by decide!

set_option maxRecDepth 1000000 in
set_option maxHeartbeats 400000000 in
theorem vectorchunk3 : pbkdf2WLoop (SHA2.St.mk 14403035353725789725 6755626892500025226 5020808023737830030 11042602477037836521 17634000325241878995 1159986118866272170 9650759692877145910 763481238414808510) (SHA2.St.mk 18283137981034777304 16203441953169177392 397008473029659825 16669063739359772147 10161908764572012100 3409527833683077911 17180757051110366343 18088452986902486923) 512 (SHA2.St.mk 14855468979535154716 9919023918543131083 165319809943312298 6903766394793802488 16460888390846559256 7892086396714511525 2129763562161269520 2709035583969924889) (SHA2.St.mk 16953851124392678392 6857484826274983630 1094173750165149166 3489452721507565666 4946285170083771222 300224630024372978 17245052691586069939 10723767232123866049)
    = (SHA2.St.mk 8258487949263033019 81197594012070679 3343936611586621827 7097387208418501612 11730653385565803877 701773171326525354 4223414702287770270 10870132371720488804, SHA2.St.mk 11797400890040933005 9902010599376462453 16997524017452889544 12798769645938744006 1746464932258694800 15288603946793816115 14314427794805418572 17000881767516868064) := by decide!

set_option maxRecDepth 1000000 in
set_option maxHeartbeats 400000000 in
theorem vectorchunk4 : pbkdf2WLoop (SHA2.St.mk 14403035353725789725 6755626892500025226 5020808023737830030 11042602477037836521 17634000325241878995 1159986118866272170 9650759692877145910 763481238414808510) (SHA2.St.mk 18283137981034777304 16203441953169177392 397008473029659825 16669063739359772147 10161908764572012100 3409527833683077911 17180757051110366343 18088452986902486923) 511 (SHA2.St.mk 8258487949263033019 81197594012070679 3343936611586621827 7097387208418501612 11730653385565803877 701773171326525354 4223414702287770270 10870132371720488804) (SHA2.St.mk 11797400890040933005 9902010599376462453 16997524017452889544 12798769645938744006 1746464932258694800 15288603946793816115 14314427794805418572 17000881767516868064)
    = (SHA2.St.mk 12559943080338449850 9956996149180638313 14031207995281394973 16192505099156023149 12135851254259661127 15240230123965750307 7956815268439692683 5892135349191601544, SHA2.St.mk 6822966345549768968 5226894297371334273 7346994231320796784 9302940218574921665 11122417782218347376 15025732863260272324 4444672852416834877 10180583576150358244) := by decide!

theorem vectorfull : pbkdf2WLoop (SHA2.St.mk 14403035353725789725 6755626892500025226 5020808023737830030 11042602477037836521 17634000325241878995 1159986118866272170 9650759692877145910 763481238414808510) (SHA2.St.mk 18283137981034777304 16203441953169177392 397008473029659825 16669063739359772147 10161908764572012100 3409527833683077911 17180757051110366343 18088452986902486923) 2047 (SHA2.St.mk 7266601542090030808 15601735043248702055 10216492880488145713 6331880844402745162 14107815679517141615 11323371403591833805 12740601186866529998 16215606223598922551) (SHA2.St.mk 7266601542090030808 15601735043248702055 10216492880488145713 6331880844402745162 14107815679517141615 11323371403591833805 12740601186866529998 16215606223598922551)
    = (SHA2.St.mk 12559943080338449850 9956996149180638313 14031207995281394973 16192505099156023149 12135851254259661127 15240230123965750307 7956815268439692683 5892135349191601544, SHA2.St.mk 6822966345549768968 5226894297371334273 7346994231320796784 9302940218574921665 11122417782218347376 15025732863260272324 4444672852416834877 10180583576150358244) := by
  rw [show (2047 : Nat) = 512 + (512 + (512 + 511)) from by norm_num]
  rw [pbkdf2WLoop_add, vectorchunk1]
  dsimp only
  rw [pbkdf2WLoop_add, vectorchunk2]
  dsimp only
  rw [pbkdf2WLoop_add, vectorchunk3]
  dsimp only
  rw [vectorchunk4]

theorem seed_vector_eval :
    BIP39.mnemonic_to_seed Fixture.vectorMnemonic [] = Fixture.vectorSeed := by
  show pbkdf2HmacSha512 (Py.utf8Encode Fixture.vectorMnemonic)
      (Py.utf8Encode (BIP39.saltLabel ++ [])) 2048 = Fixture.vectorSeed
  rw [vectorpw_eq, show Py.utf8Encode (BIP39.saltLabel ++ []) = [109, 110, 101, 109, 111, 110, 105, 99] from by decide]
  simp only [pbkdf2HmacSha512]
  rw [vectoru1_eq, show (2048 : Nat) - 1 = 2047 from rfl]
  rw [show ([100, 216, 39, 154, 56, 148, 254, 216, 216, 132, 127, 92, 60, 154, 66, 103, 141, 200, 70, 37, 63, 205, 163, 49, 87, 223, 92, 20, 138, 185, 223, 74, 195, 201, 7, 157, 54, 78, 42, 111, 157, 36, 178, 76, 58, 232, 88, 205, 176, 207, 181, 70, 224, 25, 134, 206, 225, 9, 103, 242, 71, 58, 43, 55] : List Nat) = SHA2.digest512 (SHA2.St.mk 7266601542090030808 15601735043248702055 10216492880488145713 6331880844402745162 14107815679517141615 11323371403591833805 12740601186866529998 16215606223598922551) from (vectoru1_digest).symm]
  rw [pbkdf2Loop_WLoop [97, 98, 97, 110, 100, 111, 110, 32, 97, 98, 97, 110, 100, 111, 110, 32, 97, 98, 97, 110, 100, 111, 110, 32, 97, 98, 97, 110, 100, 111, 110, 32, 97, 98, 97, 110, 100, 111, 110, 32, 97, 98, 97, 110, 100, 111, 110, 32, 97, 98, 97, 110, 100, 111, 110, 32, 97, 98, 97, 110, 100, 111, 110, 32, 97, 98, 97, 110, 100, 111, 110, 32, 97, 98, 97, 110, 100, 111, 110, 32, 97, 98, 97, 110, 100, 111, 110, 32, 97, 98, 111, 117, 116] (by decide) 2047 (SHA2.St.mk 7266601542090030808 15601735043248702055 10216492880488145713 6331880844402745162 14107815679517141615 11323371403591833805 12740601186866529998 16215606223598922551) (SHA2.St.mk 7266601542090030808 15601735043248702055 10216492880488145713 6331880844402745162 14107815679517141615 11323371403591833805 12740601186866529998 16215606223598922551) (by decide) (by decide)]
  rw [vectorist_eq, vectorost_eq, vectorfull]
  decide

theorem spacedpw_eq : Py.utf8Encode Fixture.vectorMnemonicSpace = [97, 98, 97, 110, 100, 111, 110, 32, 97, 98, 97, 110, 100, 111, 110, 32, 97, 98, 97, 110, 100, 111, 110, 32, 97, 98, 97, 110, 100, 111, 110, 32, 97, 98, 97, 110, 100, 111, 110, 32, 97, 98, 97, 110, 100, 111, 110, 32, 97, 98, 97, 110, 100, 111, 110, 32, 97, 98, 97, 110, 100, 111, 110, 32, 97, 98, 97, 110, 100, 111, 110, 32, 97, 98, 97, 110, 100, 111, 110, 32, 97, 98, 97, 110, 100, 111, 110, 32, 97, 98, 111, 117, 116, 32] := by decide

set_option maxRecDepth 100000 in
theorem spacedist_eq : istOf [97, 98, 97, 110, 100, 111, 110, 32, 97, 98, 97, 110, 100, 111, 110, 32, 97, 98, 97, 110, 100, 111, 110, 32, 97, 98, 97, 110, 100, 111, 110, 32, 97, 98, 97, 110, 100, 111, 110, 32, 97, 98, 97, 110, 100, 111, 110, 32, 97, 98, 97, 110, 100, 111, 110, 32, 97, 98, 97, 110, 100, 111, 110, 32, 97, 98, 97, 110, 100, 111, 110, 32, 97, 98, 97, 110, 100, 111, 110, 32, 97, 98, 97, 110, 100, 111, 110, 32, 97, 98, 111, 117, 116, 32] = (SHA2.St.mk 5473916078033320466 16550802282510849055 7594799592515355613 15266428439907556833 12566681568704902453 2844832998063364377 220221395047031499 5070639596290252536) := by decide!

set_option maxRecDepth 100000 in
theorem spacedost_eq : ostOf [97, 98, 97, 110, 100, 111, 110, 32, 97, 98, 97, 110, 100, 111, 110, 32, 97, 98, 97, 110, 100, 111, 110, 32, 97, 98, 97, 110, 100, 111, 110, 32, 97, 98, 97, 110, 100, 111, 110, 32, 97, 98, 97, 110, 100, 111, 110, 32, 97, 98, 97, 110, 100, 111, 110, 32, 97, 98, 97, 110, 100, 111, 110, 32, 97, 98, 97, 110, 100, 111, 110, 32, 97, 98, 97, 110, 100, 111, 110, 32, 97, 98, 97, 110, 100, 111, 110, 32, 97, 98, 111, 117, 116, 32] = (SHA2.St.mk 952168546345093361 11791922006893815401 17758663450479686245 3090448471881478875 11714480284961169286 17044377355272708061 12528001800746875572 1182943723023971474) := by decide!

set_option maxRecDepth 100000 in
theorem spacedu1_eq : hmacSha512 [97, 98, 97, 110, 100, 111, 110, 32, 97, 98, 97, 110, 100, 111, 110, 32, 97, 98, 97, 110, 100, 111, 110, 32, 97, 98, 97, 110, 100, 111, 110, 32, 97, 98, 97, 110, 100, 111, 110, 32, 97, 98, 97, 110, 100, 111, 110, 32, 97, 98, 97, 110, 100, 111, 110, 32, 97, 98, 97, 110, 100, 111, 110, 32, 97, 98, 97, 110, 100, 111, 110, 32, 97, 98, 97, 110, 100, 111, 110, 32, 97, 98, 97, 110, 100, 111, 110, 32, 97, 98, 111, 117, 116, 32] ([109, 110, 101, 109, 111, 110, 105, 99] ++ [0, 0, 0, 1]) = [207, 108, 105, 224, 92, 243, 240, 174, 105, 22, 237, 88, 46, 29, 202, 217, 53, 254, 71, 7, 133, 53, 199, 237, 16, 140, 227, 7, 166, 226, 14, 103, 57, 247, 104, 160, 96, 30, 211, 128, 211, 19, 109, 172, 163, 209, 53, 226, 107, 114, 35, 80, 33, 181, 163, 27, 146, 214, 153, 174, 22, 33, 11, 122] := by decide!

theorem spacedu1_digest : SHA2.digest512 (SHA2.St.mk 14946437675688915118 7572500786456677081 3890625225719924717 1192577623350447719 4176922217426113408 15209620954810496482 7742289536473211675 10580813347528182650) = [207, 108, 105, 224, 92, 243, 240, 174, 105, 22, 237, 88, 46, 29, 202, 217, 53, 254, 71, 7, 133, 53, 199, 237, 16, 140, 227, 7, 166, 226, 14, 103, 57, 247, 104, 160, 96, 30, 211, 128, 211, 19, 109, 172, 163, 209, 53, 226, 107, 114, 35, 80, 33, 181, 163, 27, 146, 214, 153, 174, 22, 33, 11, 122] := by decide

set_option maxRecDepth 1000000 in
set_option maxHeartbeats 400000000 in
theorem spacedchunk1 : pbkdf2WLoop (SHA2.St.mk 5473916078033320466 16550802282510849055 7594799592515355613 15266428439907556833 12566681568704902453 2844832998063364377 220221395047031499 5070639596290252536) (SHA2.St.mk 952168546345093361 11791922006893815401 17758663450479686245 3090448471881478875 11714480284961169286 17044377355272708061 12528001800746875572 1182943723023971474) 512 (SHA2.St.mk 14946437675688915118 7572500786456677081 3890625225719924717 1192577623350447719 4176922217426113408 15209620954810496482 7742289536473211675 10580813347528182650) (SHA2.St.mk 14946437675688915118 7572500786456677081 3890625225719924717 1192577623350447719 4176922217426113408 15209620954810496482 7742289536473211675 10580813347528182650)
    = (SHA2.St.mk 7259576256649796766 13488170932392197400 4634847558440292368 12291922907195967234 16444417594037390379 12634205614741368860 6144544564860854144 12073689703827178382, SHA2.St.mk 7634074465109551047 217576754741185495 5676657967917775217 11960905935051752595 17385677216434524506 16511254184298781397 2889194027162032869 5428826997260238374) := by decide!

set_option maxRecDepth 1000000 in
set_option maxHeartbeats 400000000 in
theorem spacedchunk2 : pbkdf2WLoop (SHA2.St.mk 5473916078033320466 16550802282510849055 7594799592515355613 15266428439907556833 12566681568704902453 2844832998063364377 220221395047031499 5070639596290252536) (SHA2.St.mk 952168546345093361 11791922006893815401 17758663450479686245 3090448471881478875 11714480284961169286 17044377355272708061 12528001800746875572 1182943723023971474) 512 (SHA2.St.mk 7259576256649796766 13488170932392197400 4634847558440292368 12291922907195967234 16444417594037390379 12634205614741368860 6144544564860854144 12073689703827178382) (SHA2.St.mk 7634074465109551047 217576754741185495 5676657967917775217 11960905935051752595 17385677216434524506 16511254184298781397 2889194027162032869 5428826997260238374)
    = (SHA2.St.mk 3463752836352972934 10522085524934733820 6943965091306241088 8943815331418902148 3504599252648947765 13718051711674873705 2700067604239371543 673078792728286431, SHA2.St.mk 2827632913089517462 14188824658320421478 13147889764056193318 87398679982812142 1147205172090800730 2972012889459440658 7884507306531657581 17751504958881123891) := by decide!

set_option maxRecDepth 1000000 in
set_option maxHeartbeats 400000000 in
theorem spacedchunk3 : pbkdf2WLoop (SHA2.St.mk 5473916078033320466 16550802282510849055 7594799592515355613 15266428439907556833 12566681568704902453 2844832998063364377 220221395047031499 5070639596290252536) (SHA2.St.mk 952168546345093361 11791922006893815401 17758663450479686245 3090448471881478875 11714480284961169286 17044377355272708061 12528001800746875572 1182943723023971474) 512 (SHA2.St.mk 3463752836352972934 10522085524934733820 6943965091306241088 8943815331418902148 3504599252648947765 13718051711674873705 2700067604239371543 673078792728286431) (SHA2.St.mk 2827632913089517462 14188824658320421478 13147889764056193318 87398679982812142 1147205172090800730 2972012889459440658 7884507306531657581 17751504958881123891)
    = (SHA2.St.mk 5532733186024395405 16327683696900214074 658746071074792941 14318184621628312728 5074597205031021607 1428819327473270413 17159996154680395868 15251082978471407445, SHA2.St.mk 1820353184451798321 11939667732327346399 13056517942412273205 2412808154406227041 16937694668721072530 109861214195769182 10606567585074379884 11777065514633613010) := by decide!

set_option maxRecDepth 1000000 in
set_option maxHeartbeats 400000000 in
theorem spacedchunk4 : pbkdf2WLoop (SHA2.St.mk 5473916078033320466 16550802282510849055 7594799592515355613 15266428439907556833 12566681568704902453 2844832998063364377 220221395047031499 5070639596290252536) (SHA2.St.mk 952168546345093361 11791922006893815401 17758663450479686245 3090448471881478875 11714480284961169286 17044377355272708061 12528001800746875572 1182943723023971474) 511 (SHA2.St.mk 5532733186024395405 16327683696900214074 658746071074792941 14318184621628312728 5074597205031021607 1428819327473270413 17159996154680395868 15251082978471407445) (SHA2.St.mk 1820353184451798321 11939667732327346399 13056517942412273205 2412808154406227041 16937694668721072530 109861214195769182 10606567585074379884 11777065514633613010)
    = (SHA2.St.mk 9141213023574233874 6827402096715486700 1563480098129001545 2944898686950071392 14529651018524355625 9815937625776840892 5422690369840558169 8803899037762153520, SHA2.St.mk 12663335247835466267 6912411210115467384 3635061172990050202 3145918413109028028 15611528952875170237 885587721640989071 6234318849955626562 14813115257518782341) := by decide!

theorem spacedfull : pbkdf2WLoop (SHA2.St.mk 5473916078033320466 16550802282510849055 7594799592515355613 15266428439907556833 12566681568704902453 2844832998063364377 220221395047031499 5070639596290252536) (SHA2.St.mk 952168546345093361 11791922006893815401 17758663450479686245 3090448471881478875 11714480284961169286 17044377355272708061 12528001800746875572 1182943723023971474) 2047 (SHA2.St.mk 14946437675688915118 7572500786456677081 3890625225719924717 1192577623350447719 4176922217426113408 15209620954810496482 7742289536473211675 10580813347528182650) (SHA2.St.mk 14946437675688915118 7572500786456677081 3890625225719924717 1192577623350447719 4176922217426113408 15209620954810496482 7742289536473211675 10580813347528182650)
    = (SHA2.St.mk 9141213023574233874 6827402096715486700 1563480098129001545 2944898686950071392 14529651018524355625 9815937625776840892 5422690369840558169 8803899037762153520, SHA2.St.mk 12663335247835466267 6912411210115467384 3635061172990050202 3145918413109028028 15611528952875170237 885587721640989071 6234318849955626562 14813115257518782341) := by
  rw [show (2047 : Nat) = 512 + (512 + (512 + 511)) from by norm_num]
  rw [pbkdf2WLoop_add, spacedchunk1]
  dsimp only
  rw [pbkdf2WLoop_add, spacedchunk2]
  dsimp only
  rw [pbkdf2WLoop_add, spacedchunk3]
  dsimp only
  rw [spacedchunk4]

theorem seed_spaced_eval :
    BIP39.mnemonic_to_seed Fixture.vectorMnemonicSpace [] = Fixture.spacedSeed := by
  show pbkdf2HmacSha512 (Py.utf8Encode Fixture.vectorMnemonicSpace)
      (Py.utf8Encode (BIP39.saltLabel ++ [])) 2048 = Fixture.spacedSeed
  rw [spacedpw_eq, show Py.utf8Encode (BIP39.saltLabel ++ []) = [109, 110, 101, 109, 111, 110, 105, 99] from by decide]
  simp only [pbkdf2HmacSha512]
  rw [spacedu1_eq, show (2048 : Nat) - 1 = 2047 from rfl]
  rw [show ([207, 108, 105, 224, 92, 243, 240, 174, 105, 22, 237, 88, 46, 29, 202, 217, 53, 254, 71, 7, 133, 53, 199, 237, 16, 140, 227, 7, 166, 226, 14, 103, 57, 247, 104, 160, 96, 30, 211, 128, 211, 19, 109, 172, 163, 209, 53, 226, 107, 114, 35, 80, 33, 181, 163, 27, 146, 214, 153, 174, 22, 33, 11, 122] : List Nat) = SHA2.digest512 (SHA2.St.mk 14946437675688915118 7572500786456677081 3890625225719924717 1192577623350447719 4176922217426113408 15209620954810496482 7742289536473211675 10580813347528182650) from (spacedu1_digest).symm]
  rw [pbkdf2Loop_WLoop [97, 98, 97, 110, 100, 111, 110, 32, 97, 98, 97, 110, 100, 111, 110, 32, 97, 98, 97, 110, 100, 111, 110, 32, 97, 98, 97, 110, 100, 111, 110, 32, 97, 98, 97, 110, 100, 111, 110, 32, 97, 98, 97, 110, 100, 111, 110, 32, 97, 98, 97, 110, 100, 111, 110, 32, 97, 98, 97, 110, 100, 111, 110, 32, 97, 98, 97, 110, 100, 111, 110, 32, 97, 98, 97, 110, 100, 111, 110, 32, 97, 98, 97, 110, 100, 111, 110, 32, 97, 98, 111, 117, 116, 32] (by decide) 2047 (SHA2.St.mk 14946437675688915118 7572500786456677081 3890625225719924717 1192577623350447719 4176922217426113408 15209620954810496482 7742289536473211675 10580813347528182650) (SHA2.St.mk 14946437675688915118 7572500786456677081 3890625225719924717 1192577623350447719 4176922217426113408 15209620954810496482 7742289536473211675 10580813347528182650) (by decide) (by decide)]
  rw [spacedist_eq, spacedost_eq, spacedfull]
  decide

/-- Claim C4: `mnemonic_to_seed` is PBKDF2-HMAC-SHA512 over the verbatim
UTF-8 bytes of the mnemonic with salt `'mnemonic' + passphrase` and 2048
iterations, always yielding 64 bytes; on the eleven-times-`abandon`,
`about` mnemonic with empty passphrase it yields the published test-vector
seed `5eb00bbd...`. -/
theorem claim_C4 :
    (∀ m p : List Char, BIP39.mnemonic_to_seed m p
        = pbkdf2HmacSha512 (Py.utf8Encode m) (Py.utf8Encode (BIP39.saltLabel ++ p)) 2048)
    ∧ (∀ m p : List Char, (BIP39.mnemonic_to_seed m p).length = 64)
    ∧ BIP39.mnemonic_to_seed Fixture.vectorMnemonic [] = Fixture.vectorSeed :=
  ⟨fun _ _ => rfl, fun m p => mnemonic_to_seed_length m p, seed_vector_eval⟩

/-- Claim C5: `generate_from_seed` hashes the seed with SHA-256, uses the
digest as the ed25519 seed, and returns the 64-byte private key laid out
as that digest followed by the derived 32-byte public key;
the derivation is deterministic. -/
theorem claim_C5 (seed : List Nat) (_h : seed.length = 64) :
    (ValidatorKey.generate_from_seed seed).private_key
        = sha256 seed ++ (ValidatorKey.generate_from_seed seed).public_key
    ∧ (ValidatorKey.generate_from_seed seed).public_key
        = Ed25519.ed25519Pub (sha256 seed)
    ∧ (ValidatorKey.generate_from_seed seed).private_key.length = 64
    ∧ (ValidatorKey.generate_from_seed seed).public_key.length = 32
    ∧ ∀ seed2 : List Nat, seed2 = seed
        → ValidatorKey.generate_from_seed seed2 = ValidatorKey.generate_from_seed seed :=
  ⟨rfl, rfl, ValidatorKey.generate_from_seed_private_length seed,
    ValidatorKey.generate_from_seed_public_length seed,
    fun _ h2 => congrArg ValidatorKey.generate_from_seed h2⟩

/-- Witness for C5 at a concrete 64-byte seed. -/
theorem claim_C5_witness :
    (ValidatorKey.generate_from_seed (List.replicate 64 7)).private_key
        = sha256 (List.replicate 64 7)
          ++ (ValidatorKey.generate_from_seed (List.replicate 64 7)).public_key
    ∧ (ValidatorKey.generate_from_seed (List.replicate 64 7)).public_key
        = Ed25519.ed25519Pub (sha256 (List.replicate 64 7))
    ∧ (ValidatorKey.generate_from_seed (List.replicate 64 7)).private_key.length = 64
    ∧ (ValidatorKey.generate_from_seed (List.replicate 64 7)).public_key.length = 32
    ∧ ∀ seed2 : List Nat, seed2 = List.replicate 64 7
        → ValidatorKey.generate_from_seed seed2
          = ValidatorKey.generate_from_seed (List.replicate 64 7) :=
  claim_C5 (List.replicate 64 7) (by decide)

/-- Claim C6: the PyNaCl branch and the cryptography-library branch of
`generate_from_seed` agree byte for byte: both produce the 64-byte
private key and the 32-byte public key from the same ed25519 derivation. -/
theorem claim_C6 : ∀ seed : List Nat,
    ValidatorKey.generate_from_seed_nacl seed = ValidatorKey.generate_from_seed_crypto seed
    ∧ (ValidatorKey.generate_from_seed_nacl seed).private_key.length = 64
    ∧ (ValidatorKey.generate_from_seed_nacl seed).public_key.length = 32 :=
  fun seed => ⟨rfl, ValidatorKey.generate_from_seed_private_length seed,
    ValidatorKey.generate_from_seed_public_length seed⟩

/-- Claim C7: on a 32-byte public key, `generate_address` is the uppercase
hex encoding of the first 20 bytes of the SHA-256 of the key: exactly 40
characters, all uppercase hexadecimal digits. -/
theorem claim_C7 (pk : List Nat) (_h : pk.length = 32) :
    ValidatorKey.generate_address pk
        = ValidatorKey.pyUpper (ValidatorKey.bytesHex ((sha256 pk).take 20))
    ∧ (ValidatorKey.generate_address pk).length = 40
    ∧ ∀ c ∈ ValidatorKey.generate_address pk, Spec.isUpperHexDigit c :=
  ⟨rfl, ValidatorKey.generate_address_length pk, ValidatorKey.generate_address_chars pk⟩

/-- Witness for C7 at a concrete 32-byte key. -/
theorem claim_C7_witness :
    ValidatorKey.generate_address (List.replicate 32 7)
        = ValidatorKey.pyUpper (ValidatorKey.bytesHex ((sha256 (List.replicate 32 7)).take 20))
    ∧ (ValidatorKey.generate_address (List.replicate 32 7)).length = 40
    ∧ ∀ c ∈ ValidatorKey.generate_address (List.replicate 32 7), Spec.isUpperHexDigit c :=
  claim_C7 (List.replicate 32 7) (by decide)

/-- Counterexample to C8 as stated: the empty byte string is not 32 bytes
long, yet `generate_address` returns a normal 40-character address for it
instead of failing. -/
theorem claim_C8_counterexample :
    ([] : List Nat).length ≠ 32
    ∧ (ValidatorKey.generate_address []).length = 40 := by
  refine ⟨by decide, ?_⟩
  rfl

/-- Claim C8 as amended: `generate_address` performs no length check; for
an input of any length it returns the uppercase hex of the first 20 bytes
of the SHA-256 of the input, a 40-character address, and never fails. -/
theorem claim_C8 (input : List Nat) :
    ValidatorKey.generate_address input
        = ValidatorKey.pyUpper (ValidatorKey.bytesHex ((sha256 input).take 20))
    ∧ (ValidatorKey.generate_address input).length = 40
    ∧ ∀ c ∈ ValidatorKey.generate_address input, Spec.isUpperHexDigit c :=
  ⟨rfl, ValidatorKey.generate_address_length input, ValidatorKey.generate_address_chars input⟩

/-- Claim C9: the pipeline mnemonic → seed → key pair → validator record
is a pure deterministic composition: equal inputs give byte-identical
records, in particular equal `address`, `pub_key.value` and
`priv_key.value` fields. -/
theorem claim_C9 (m1 m2 p1 p2 : List Char) (hm : m1 = m2) (hp : p1 = p2) :
    ValidatorKey.runPipeline m1 p1 = ValidatorKey.runPipeline m2 p2
    ∧ (ValidatorKey.runPipeline m1 p1).address = (ValidatorKey.runPipeline m2 p2).address
    ∧ (ValidatorKey.runPipeline m1 p1).pub_key.value
        = (ValidatorKey.runPipeline m2 p2).pub_key.value
    ∧ (ValidatorKey.runPipeline m1 p1).priv_key.value
        = (ValidatorKey.runPipeline m2 p2).priv_key.value
    ∧ ValidatorKey.runPipeline m1 p1
        = ValidatorKey.create_priv_validator_key
            (ValidatorKey.generate_from_seed (BIP39.mnemonic_to_seed m1 p1)).private_key
            (ValidatorKey.generate_from_seed (BIP39.mnemonic_to_seed m1 p1)).public_key := by
  subst hm
  subst hp
  exact ⟨rfl, rfl, rfl, rfl, rfl⟩

/-- Witness for C9 at the test-vector mnemonic with empty passphrase. -/
theorem claim_C9_witness :
    ValidatorKey.runPipeline Fixture.vectorMnemonic []
        = ValidatorKey.runPipeline Fixture.vectorMnemonic []
    ∧ (ValidatorKey.runPipeline Fixture.vectorMnemonic []).address
        = (ValidatorKey.runPipeline Fixture.vectorMnemonic []).address
    ∧ (ValidatorKey.runPipeline Fixture.vectorMnemonic []).pub_key.value
        = (ValidatorKey.runPipeline Fixture.vectorMnemonic []).pub_key.value
    ∧ (ValidatorKey.runPipeline Fixture.vectorMnemonic []).priv_key.value
        = (ValidatorKey.runPipeline Fixture.vectorMnemonic []).priv_key.value
    ∧ ValidatorKey.runPipeline Fixture.vectorMnemonic []
        = ValidatorKey.create_priv_validator_key
            (ValidatorKey.generate_from_seed
              (BIP39.mnemonic_to_seed Fixture.vectorMnemonic [])).private_key
            (ValidatorKey.generate_from_seed
              (BIP39.mnemonic_to_seed Fixture.vectorMnemonic [])).public_key :=
  claim_C9 Fixture.vectorMnemonic Fixture.vectorMnemonic [] [] rfl rfl

set_option maxRecDepth 1000000 in
/-- Claim C10: `validate_mnemonic` depends only on the whitespace token
sequence of its input, while `mnemonic_to_seed` uses the raw bytes
verbatim; concretely, the test-vector mnemonic and the same string with a
trailing space have the same token sequence and both validate, yet their
64-byte seeds differ. -/
theorem claim_C10 :
    (∀ (wl : List (List Char)) (m1 m2 : List Char),
        Py.pySplit (Py.pyStrip m1) = Py.pySplit (Py.pyStrip m2)
        → BIP39.validate_mnemonic wl m1 = BIP39.validate_mnemonic wl m2)
    ∧ Fixture.vectorMnemonicSpace ≠ Fixture.vectorMnemonic
    ∧ Py.pySplit (Py.pyStrip Fixture.vectorMnemonicSpace)
        = Py.pySplit (Py.pyStrip Fixture.vectorMnemonic)
    ∧ BIP39.validate_mnemonic Fixture.wlTest Fixture.vectorMnemonic = true
    ∧ BIP39.validate_mnemonic Fixture.wlTest Fixture.vectorMnemonicSpace = true
    ∧ BIP39.mnemonic_to_seed Fixture.vectorMnemonicSpace []
        ≠ BIP39.mnemonic_to_seed Fixture.vectorMnemonic [] := by
  refine ⟨?_, by decide, by rfl, by rfl, by rfl, ?_⟩
  · intro wl m1 m2 h
    unfold BIP39.validate_mnemonic
    rw [h]
  · rw [seed_vector_eval, seed_spaced_eval]
    decide

/-- Witness for C10: its universal clause applied to the two concrete
whitespace variants. -/
theorem claim_C10_witness :
    BIP39.validate_mnemonic Fixture.wlTest Fixture.vectorMnemonicSpace
      = BIP39.validate_mnemonic Fixture.wlTest Fixture.vectorMnemonic :=
  claim_C10.1 Fixture.wlTest Fixture.vectorMnemonicSpace Fixture.vectorMnemonic (by rfl)
